/-
Verification of the netscope core pipeline against its design notes.

The Go sources are shallowly embedded: Go maps become association lists
(new inserts cons at the front, so a lookup returns the latest write),
`time.Time` becomes an integer number of seconds passed explicitly to the
functions that call `time.Now()`, machine integers become `Nat`/`Int`
with explicit `% 2^w` where Go converts, and the concurrency wrappers
(mutexes) are dropped since every claim is about the sequential semantics.
-/
import Mathlib

namespace Netscope

/-- Association-list lookup, the read of a Go map.  Inserts cons onto the
front of the list, so the first hit is the most recent write. -/
def lookupKey {α β : Type} [DecidableEq α] : List (α × β) → α → Option β
  | [], _ => none
  | (k, v) :: rest, key => if k = key then some v else lookupKey rest key

/-! ## DNS correlation cache (internal/correlator, DNS module) -/

/-- `DNSEntry` from the DNS correlation module: a cached resolution. -/
structure DNSEntry where
  Domain : String
  ExpiresAt : Int
deriving Repr, DecidableEq

/-- `DNSCache`: IP → entry map (association list, latest write first). -/
structure DNSCache where
  cache : List (String × DNSEntry)
deriving Repr, DecidableEq

/-- `NewDNSCache()`. -/
def NewDNSCache : DNSCache := ⟨[]⟩

/-- The TTL actually used by `DNSCache.Add`: the Go code defaults to 300 s
only when the provided TTL is 0. -/
def effectiveTTL (TTL : Nat) : Nat := if TTL = 0 then 300 else TTL

/-- `DNSCache.Add(Domain, IPS, TTL)`; `now` stands for the `time.Now()`
call made inside the Go function. -/
def DNSCache.Add (C : DNSCache) (now : Int) (Domain : String)
    (IPS : List String) (TTL : Nat) : DNSCache :=
  let Expiry : Int := now + (effectiveTTL TTL : Nat)
  ⟨IPS.foldl (fun acc IP => (IP, ⟨Domain, Expiry⟩) :: acc) C.cache⟩

/-- `DNSCache.Resolve(IP)`;  `time.Now().After(e)` is `e < now`. -/
def DNSCache.Resolve (C : DNSCache) (now : Int) (IP : String) : String :=
  match lookupKey C.cache IP with
  | none => ""
  | some Entry => if Entry.ExpiresAt < now then "" else Entry.Domain

/-! ## Models (internal/models) and the flow table (internal/correlator/flow.go) -/

/-- `models.FlowKey`. -/
structure FlowKey where
  SrcIP : String
  DstIP : String
  SrcPort : Nat
  DstPort : Nat
  Protocol : String
deriving Repr, DecidableEq

/-- `models.Flow` (the DB-only fields `ID`, `DeviceID`, `LastPersisted`
are omitted; `Application` and `TrafficClass` are the classifier labels
read by the baseline tracker and anomaly detector). -/
structure Flow where
  Key : FlowKey
  FirstSeen : Int
  LastSeen : Int
  PacketCount : Nat
  ByteCount : Nat
  Protocol : String
  DNSQuery : String
  TLSSNI : String
  DstDomain : String
  DstCountry : String
  DstCity : String
  DstASN : String
  JA3 : String
  JA3Application : String
  Application : String
  TrafficClass : String
deriving Repr, DecidableEq

/-- `models.DNSAnswer`. -/
structure DNSAnswer where
  Name : String
  Typ : String
  IP : String
  TTL : Nat
  CNAME : String
deriving Repr, DecidableEq

/-- `models.DNS`. -/
structure DNSInfo where
  Query : String
  Answers : List DNSAnswer
  ResCode : String
  Typ : String
  QueryType : String
deriving Repr, DecidableEq

/-- `models.TLS` as consumed by the flow table (including the JA3 hash). -/
structure TLSInfo where
  SNI : String
  Version : String
  CipherSuite : String
  Handshake : Bool
  JA3 : String
deriving Repr, DecidableEq

/-- `models.Layer3`. -/
structure Layer3 where
  SrcIP : String
  DstIP : String
  Version : String
  Protocol : String
  TTL : Nat
deriving Repr, DecidableEq

/-- `models.Layer4` (ports are Go `int`s; `makeFlowKey` truncates them). -/
structure Layer4 where
  SrcPort : Nat
  DstPort : Nat
  Protocol : String
deriving Repr, DecidableEq

/-- `models.Packet` restricted to the layers the flow table reads. -/
structure Packet where
  Timestamp : Int
  Length : Nat
  Layer3 : Option Layer3
  Layer4 : Option Layer4
  DNS : Option DNSInfo
  TLS : Option TLSInfo
deriving Repr, DecidableEq

/-- `enricher.GeoData` (the fields copied into a flow). -/
structure GeoData where
  Country : String
  City : String
  ASN : String
deriving Repr, DecidableEq

/-- `correlator.FlowTable`.  The GeoIP service and the JA3 catalog are
external collaborators: they are carried as (optional) lookup functions,
`none` standing for a `nil` service / failed lookup. -/
structure FlowTable where
  flows : List (FlowKey × Flow)
  dnsCache : DNSCache
  geoIP : Option (String → Option GeoData)
  ja3DB : Option (String → String)

/-- `NewFlowTable(geoIP)`; the JA3 catalog contents are a parameter. -/
def NewFlowTable (geoIP : Option (String → Option GeoData))
    (ja3DB : Option (String → String)) : FlowTable :=
  { flows := [], dnsCache := NewDNSCache, geoIP := geoIP, ja3DB := ja3DB }

/-- Lexicographic comparison of character lists by code point. -/
def goCharListLt : List Char → List Char → Bool
  | _, [] => false
  | [], _ :: _ => true
  | a :: as, b :: bs =>
    if a.toNat < b.toNat then true
    else if b.toNat < a.toNat then false
    else goCharListLt as bs

/-- Go's string `<`: lexicographic byte order, which on UTF-8 text
coincides with code-point order. -/
def goStringLt (a b : String) : Bool := goCharListLt a.data b.data

/-- `makeFlowKey` (flow.go): canonical bidirectional key.  Go's
`uint16(port)` conversion is the `% 65536`. -/
def makeFlowKey (l3 : Layer3) (l4 : Layer4) : FlowKey :=
  let srcIP := l3.SrcIP
  let dstIP := l3.DstIP
  let srcPort := l4.SrcPort % 65536
  let dstPort := l4.DstPort % 65536
  let swap : Bool :=
    if goStringLt dstIP srcIP then true
    else if srcIP = dstIP ∧ dstPort < srcPort then true
    else false
  if swap then
    { SrcIP := dstIP, DstIP := srcIP, SrcPort := dstPort, DstPort := srcPort,
      Protocol := l4.Protocol }
  else
    { SrcIP := srcIP, DstIP := dstIP, SrcPort := srcPort, DstPort := dstPort,
      Protocol := l4.Protocol }

/-- Go map assignment `flows[Key] = Flow`: replace in place or add. -/
def setFlow : List (FlowKey × Flow) → FlowKey → Flow → List (FlowKey × Flow)
  | [], k, f => [(k, f)]
  | (k', f') :: rest, k, f =>
    if k' = k then (k, f) :: rest else (k', f') :: setFlow rest k f

/-- The zero-valued `models.Flow` literal built by `Update` for an unseen
key (Go zero values: empty strings, zero counters, zero time). -/
def Flow.blank (Key : FlowKey) (ts : Int) (proto : String) : Flow :=
  { Key := Key, FirstSeen := ts, LastSeen := 0, PacketCount := 0,
    ByteCount := 0, Protocol := proto, DNSQuery := "", TLSSNI := "",
    DstDomain := "", DstCountry := "", DstCity := "", DstASN := "",
    JA3 := "", JA3Application := "", Application := "", TrafficClass := "" }

/-- The DNS-response branch at the top of `FlowTable.Update`: populate the
cache from a response packet before resolving the flow key. -/
def processDNSResponse (FT : FlowTable) (now : Int) (P : Packet) : FlowTable :=
  match P.DNS with
  | some dns =>
    if dns.Typ = "Response" then
      let IPS := (dns.Answers.filter (fun A => A.IP ≠ "")).map (fun A => A.IP)
      if IPS ≠ [] then
        let firstTTL := (dns.Answers.headD ⟨"", "", "", 0, ""⟩).TTL
        { FT with dnsCache := FT.dnsCache.Add now dns.Query IPS firstTTL }
      else FT
    else FT
  | none => FT

/-- The new-flow enrichment step of `FlowTable.Update`: DNS correlation of
both canonical endpoints (the src result taken first), then the GeoIP
lookup of the dst IP falling back to the src IP. -/
def enrichNewFlow (FT : FlowTable) (now : Int) (Key : FlowKey) (F0 : Flow) : Flow :=
  let Domain1 := FT.dnsCache.Resolve now Key.SrcIP
  let Domain2 := FT.dnsCache.Resolve now Key.DstIP
  let F :=
    if Domain1 ≠ "" then { F0 with DstDomain := Domain1 }
    else if Domain2 ≠ "" then { F0 with DstDomain := Domain2 }
    else F0
  match FT.geoIP with
  | none => F
  | some Lookup =>
    let geo :=
      match Lookup Key.DstIP with
      | some g => if g.Country = "" then Lookup Key.SrcIP else some g
      | none => Lookup Key.SrcIP
    match geo with
    | some g =>
      if g.Country ≠ "" then
        { F with DstCountry := g.Country, DstCity := g.City, DstASN := g.ASN }
      else F
    | none => F

/-- The unconditional tail of `FlowTable.Update`: stats merge plus the
first-observation fills of DNS query, TLS SNI and JA3. -/
def applyPacketStats (FT : FlowTable) (P : Packet) (F0 : Flow) : Flow :=
  let F1 := { F0 with LastSeen := P.Timestamp,
                      PacketCount := F0.PacketCount + 1,
                      ByteCount := F0.ByteCount + P.Length }
  let F2 :=
    match P.DNS with
    | some dns => if F1.DNSQuery = "" then { F1 with DNSQuery := dns.Query } else F1
    | none => F1
  match P.TLS with
  | some tls =>
    let F3 := if F2.TLSSNI = "" then { F2 with TLSSNI := tls.SNI } else F2
    if F3.JA3 = "" then
      let F4 := { F3 with JA3 := tls.JA3 }
      if F4.JA3 ≠ "" then
        match FT.ja3DB with
        | some db => { F4 with JA3Application := db F4.JA3 }
        | none => F4
      else F4
    else F3
  | none => F2

/-- `FlowTable.Update(Packet)`; `now` is the wall clock the DNS cache
reads.  Returns the updated table and the flow (`none` when the packet
lacks an L3 or L4 layer, as in the Go nil guard). -/
def FlowTable.Update (FT : FlowTable) (now : Int) (P : Packet) :
    FlowTable × Option Flow :=
  match P.Layer3, P.Layer4 with
  | some l3, some l4 =>
    let FT1 := processDNSResponse FT now P
    let Key := makeFlowKey l3 l4
    let F0 :=
      match lookupKey FT1.flows Key with
      | some F => F
      | none => enrichNewFlow FT1 now Key (Flow.blank Key P.Timestamp l4.Protocol)
    let F1 := applyPacketStats FT1 P F0
    ({ FT1 with flows := setFlow FT1.flows Key F1 }, some F1)
  | _, _ => (FT, none)

/-- `GetActiveFlows()`. -/
def FlowTable.GetActiveFlows (ft : FlowTable) : List Flow := ft.flows.map (·.2)

/-- The direction-reversed counterpart of an L3 record. -/
def Layer3.reversed (l3 : Layer3) : Layer3 :=
  { l3 with SrcIP := l3.DstIP, DstIP := l3.SrcIP }

/-- The direction-reversed counterpart of an L4 record. -/
def Layer4.reversed (l4 : Layer4) : Layer4 :=
  { l4 with SrcPort := l4.DstPort, DstPort := l4.SrcPort }

/-- The canonical key of a packet, when it has both layers. -/
def Packet.flowKey? (P : Packet) : Option FlowKey :=
  match P.Layer3, P.Layer4 with
  | some l3, some l4 => some (makeFlowKey l3 l4)
  | _, _ => none

/-- A sequence of `Update` calls, each with its own wall-clock instant. -/
def processCalls (FT : FlowTable) : List (Int × Packet) → FlowTable
  | [] => FT
  | (now, P) :: rest => processCalls ((FT.Update now P).1) rest

/-- Every stored flow records the key it is filed under. -/
def KeysConsistent (ft : FlowTable) : Prop :=
  ∀ kf ∈ ft.flows, (kf : FlowKey × Flow).2.Key = kf.1

/-- Every stored flow has `first_seen ≤ last_seen ≤ lb`. -/
def FlowsBounded (ft : FlowTable) (lb : Int) : Prop :=
  ∀ kf ∈ ft.flows,
    (kf : FlowKey × Flow).2.FirstSeen ≤ kf.2.LastSeen ∧ kf.2.LastSeen ≤ lb

/-- The flow map holds each key at most once. -/
def NodupKeys (ft : FlowTable) : Prop := (ft.flows.map Prod.fst).Nodup

/-- The canonicalization scenario of the spec: TCP
`10.0.0.5:1000 → 93.184.216.34:443`. -/
def l3Scenario : Layer3 := ⟨"10.0.0.5", "93.184.216.34", "IPv4", "TCP", 64⟩

/-- L4 of the canonicalization scenario. -/
def l4Scenario : Layer4 := ⟨1000, 443, "TCP"⟩

/-- First packet of the canonicalization scenario. -/
def p1Scenario : Packet := ⟨100, 60, some l3Scenario, some l4Scenario, none, none⟩

/-- Second packet: the direction-reversed counterpart. -/
def p2Scenario : Packet :=
  ⟨101, 60, some l3Scenario.reversed, some l4Scenario.reversed, none, none⟩

/-- A DNS cache able to resolve both endpoints of the C3 test packet. -/
def dnsCacheC3 : DNSCache :=
  (NewDNSCache.Add 0 "dst.example" ["9.9.9.9"] 100).Add 0 "src.example" ["1.1.1.1"] 100

/-- A flow table whose cache resolves both endpoints. -/
def flowTableC3 : FlowTable :=
  { flows := [], dnsCache := dnsCacheC3, geoIP := none, ja3DB := none }

/-- A packet opening a new flow between two resolvable IPs. -/
def packetC3 : Packet :=
  ⟨50, 80, some ⟨"1.1.1.1", "9.9.9.9", "IPv4", "TCP", 64⟩,
   some ⟨1234, 443, "TCP"⟩, none, none⟩

/-- A packet of the C8 out-of-order scenario at time 10. -/
def packetLate : Packet :=
  ⟨10, 60, some ⟨"10.0.0.5", "93.184.216.34", "IPv4", "TCP", 64⟩,
   some ⟨1000, 443, "TCP"⟩, none, none⟩

/-- The same 5-tuple at the earlier time 5. -/
def packetEarly : Packet :=
  ⟨5, 60, some ⟨"10.0.0.5", "93.184.216.34", "IPv4", "TCP", 64⟩,
   some ⟨1000, 443, "TCP"⟩, none, none⟩

/-! ## Baseline tracker (internal/analyzer/baseline.go) -/

/-- Go map assignment `m[k] = v`: replace in place or add. -/
def setKey {α β : Type} [DecidableEq α] : List (α × β) → α → β → List (α × β)
  | [], k, v => [(k, v)]
  | (k', v') :: rest, k, v =>
    if k' = k then (k, v) :: rest else (k', v') :: setKey rest k v

/-- Go `map[string]int` bump `m[k]++` (a missing key counts as 0). -/
def bumpCount : List (String × Nat) → String → List (String × Nat)
  | [], k => [(k, 1)]
  | (k', n) :: rest, k =>
    if k' = k then (k', n + 1) :: rest else (k', n) :: bumpCount rest k

/-- Sum of the counts of a Go `map[string]int`. -/
def sumCounts (m : List (String × Nat)) : Nat := (m.map Prod.snd).sum

/-- The hour 0..23 of an integer timestamp (`time.Time.Hour()` for a UTC
clock counted in seconds). -/
def hourOf (t : Int) : Nat := (t % 86400).toNat / 3600

/-- `analyzer.DeviceBaseline`. -/
structure DeviceBaseline where
  DeviceMAC : String
  FirstSeen : Int
  LastUpdated : Int
  FlowCount : Nat
  TypicalApps : List (String × Nat)
  TypicalDestinations : List (String × Nat)
  TypicalTrafficClasses : List (String × Nat)
  TypicalCountries : List (String × Nat)
  TypicalHourlyActivity : List Nat
  TotalBytes : Nat
  TotalPackets : Nat
deriving Repr, DecidableEq

/-- `analyzer.BaselineTracker`. -/
structure BaselineTracker where
  baselines : List (String × DeviceBaseline)
  minFlowsForBaseline : Nat
deriving Repr, DecidableEq

/-- `NewBaselineTracker(minFlows)` (0 defaults to 100). -/
def NewBaselineTracker (minFlows : Nat) : BaselineTracker :=
  { baselines := [],
    minFlowsForBaseline := if minFlows = 0 then 100 else minFlows }

/-- The zero-valued `DeviceBaseline` literal built by `UpdateBaseline` for
an unseen MAC (Go zero values; the hourly array starts all-zero). -/
def freshBaseline (deviceMAC : String) (flow : Flow) : DeviceBaseline :=
  { DeviceMAC := deviceMAC, FirstSeen := flow.FirstSeen, LastUpdated := 0,
    FlowCount := 0, TypicalApps := [], TypicalDestinations := [],
    TypicalTrafficClasses := [], TypicalCountries := [],
    TypicalHourlyActivity := List.replicate 24 0,
    TotalBytes := 0, TotalPackets := 0 }

/-- The field updates `UpdateBaseline` applies to the (found or created)
baseline: counters, the four frequency maps, and the hourly histogram. -/
def updateBaselineFields (now : Int) (flow : Flow) (baseline : DeviceBaseline) :
    DeviceBaseline :=
  let b1 := { baseline with
    LastUpdated := now,
    FlowCount := baseline.FlowCount + 1,
    TotalBytes := baseline.TotalBytes + flow.ByteCount,
    TotalPackets := baseline.TotalPackets + flow.PacketCount }
  let b2 :=
    if flow.Application ≠ "" then
      { b1 with TypicalApps := bumpCount b1.TypicalApps flow.Application }
    else b1
  let b3 :=
    if flow.DstDomain ≠ "" then
      { b2 with TypicalDestinations := bumpCount b2.TypicalDestinations flow.DstDomain }
    else if flow.Key.DstIP ≠ "" then
      { b2 with TypicalDestinations := bumpCount b2.TypicalDestinations flow.Key.DstIP }
    else b2
  let b4 :=
    if flow.TrafficClass ≠ "" then
      { b3 with TypicalTrafficClasses := bumpCount b3.TypicalTrafficClasses flow.TrafficClass }
    else b3
  let b5 :=
    if flow.DstCountry ≠ "" then
      { b4 with TypicalCountries := bumpCount b4.TypicalCountries flow.DstCountry }
    else b4
  let hour := hourOf flow.LastSeen
  let hourly := b5.TypicalHourlyActivity.set hour
    (b5.TypicalHourlyActivity.getD hour 0 + 1)
  { b5 with TypicalHourlyActivity := hourly }

/-- `BaselineTracker.UpdateBaseline(deviceMAC, flow)`; `flow = none` is the
Go nil pointer and, like an empty MAC, makes the call a no-op. -/
def BaselineTracker.UpdateBaseline (bt : BaselineTracker) (now : Int)
    (deviceMAC : String) (flow : Option Flow) : BaselineTracker :=
  match flow with
  | none => bt
  | some flow =>
    if deviceMAC = "" then bt
    else
      let baseline :=
        match lookupKey bt.baselines deviceMAC with
        | some b => b
        | none => freshBaseline deviceMAC flow
      { bt with baselines :=
          setKey bt.baselines deviceMAC (updateBaselineFields now flow baseline) }

/-- `HasApp` (O(1) map membership; empty strings never match). -/
def DeviceBaseline.HasApp (baseline : DeviceBaseline) (app : String) : Bool :=
  if app = "" then false else (lookupKey baseline.TypicalApps app).isSome

/-- `HasDestination`. -/
def DeviceBaseline.HasDestination (baseline : DeviceBaseline) (dest : String) : Bool :=
  if dest = "" then false else (lookupKey baseline.TypicalDestinations dest).isSome

/-- `HasCountry`. -/
def DeviceBaseline.HasCountry (baseline : DeviceBaseline) (country : String) : Bool :=
  if country = "" then false else (lookupKey baseline.TypicalCountries country).isSome

/-- `GetAverageHourlyActivity()`: the Go `float64(total) / 24.0` modelled
exactly in ℚ (the nil-receiver guard lives at the call sites, which all
hold a non-nil baseline). -/
def DeviceBaseline.GetAverageHourlyActivity (baseline : DeviceBaseline) : ℚ :=
  if baseline.FlowCount = 0 then 0
  else (baseline.TypicalHourlyActivity.sum : ℚ) / 24

/-- A sequence of `UpdateBaseline` calls `(now, mac, flow)`. -/
def runBaselineCalls (bt : BaselineTracker) :
    List (Int × String × Option Flow) → BaselineTracker
  | [] => bt
  | (now, mac, flow) :: rest =>
    runBaselineCalls (bt.UpdateBaseline now mac flow) rest

/-- The invariant every reachable baseline satisfies. -/
def BaselineInv (b : DeviceBaseline) : Prop :=
  b.TypicalHourlyActivity.length = 24
  ∧ sumCounts b.TypicalApps ≤ b.FlowCount
  ∧ b.TypicalHourlyActivity.sum = b.FlowCount
  ∧ sumCounts b.TypicalDestinations ≤ b.FlowCount

/-! ## Anomaly detector (internal/analyzer/anomaly.go) -/

/-- `AnomalyTypeVolume`. -/
def AnomalyTypeVolume : String := "VOLUME_SPIKE"

/-- `AnomalyTypeNewDest`. -/
def AnomalyTypeNewDest : String := "NEW_DESTINATION"

/-- `AnomalyTypeNewApp`. -/
def AnomalyTypeNewApp : String := "NEW_APPLICATION"

/-- `AnomalyTypeNewGeo`. -/
def AnomalyTypeNewGeo : String := "NEW_GEOGRAPHY"

/-- `AnomalyTypeUnusualTime`. -/
def AnomalyTypeUnusualTime : String := "UNUSUAL_TIME"

/-- `SeverityLow = 1`. -/
def SeverityLow : Int := 1

/-- `SeverityMedium = 5`. -/
def SeverityMedium : Int := 5

/-- `SeverityHigh = 8`. -/
def SeverityHigh : Int := 8

/-- `SeverityCritical = 10`. -/
def SeverityCritical : Int := 10

/-- `analyzer.Anomaly` (the numeric `%.0f` of the volume description is
elided; no verified property reads it). -/
structure Anomaly where
  Typ : String
  Severity : Int
  Description : String
  Flow : Flow
  Timestamp : String
deriving Repr, DecidableEq

/-- `analyzer.AnomalyDetector`. -/
structure AnomalyDetector where
  volumeThresholdMultiplier : ℚ
deriving Repr, DecidableEq

/-- `NewAnomalyDetector()`. -/
def NewAnomalyDetector : AnomalyDetector := ⟨5⟩

/-- `AnomalyDetector.Detect(flow, baseline)`: the five independent rules,
in source order; `none` is the Go nil baseline. -/
def AnomalyDetector.Detect (ad : AnomalyDetector) (flow : Flow)
    (baseline : Option DeviceBaseline) : List Anomaly :=
  match baseline with
  | none => []
  | some baseline =>
    let avgHourly := baseline.GetAverageHourlyActivity
    let a1 : List Anomaly :=
      -- 1048576 is Go's `1024*1024`; written folded so kernel reduction works
      if avgHourly > 1048576
          ∧ (flow.ByteCount : ℚ) > avgHourly * ad.volumeThresholdMultiplier then
        [{ Typ := AnomalyTypeVolume, Severity := SeverityMedium,
           Description := "Flow volume (" ++ toString flow.ByteCount
             ++ " bytes) exceeds 5x hourly average",
           Flow := flow, Timestamp := "" }]
      else []
    let a2 : List Anomaly :=
      if flow.DstCountry ≠ "" ∧ baseline.HasCountry flow.DstCountry = false then
        [{ Typ := AnomalyTypeNewGeo, Severity := SeverityMedium,
           Description := "Device connected to new country: " ++ flow.DstCountry,
           Flow := flow, Timestamp := "" }]
      else []
    let a3 : List Anomaly :=
      if flow.Application ≠ "" ∧ baseline.HasApp flow.Application = false
          ∧ baseline.TypicalApps.length > 5 then
        [{ Typ := AnomalyTypeNewApp, Severity := SeverityLow,
           Description := "Device used new application: " ++ flow.Application,
           Flow := flow, Timestamp := "" }]
      else []
    let a4 : List Anomaly :=
      if flow.DstDomain ≠ "" ∧ baseline.HasDestination flow.DstDomain = false
          ∧ baseline.TypicalDestinations.length > 20 then
        [{ Typ := AnomalyTypeNewDest, Severity := SeverityLow,
           Description := "Device visited new domain: " ++ flow.DstDomain,
           Flow := flow, Timestamp := "" }]
      else []
    let a5 : List Anomaly :=
      if baseline.TypicalHourlyActivity.getD (hourOf flow.LastSeen) 0 = 0
          ∧ baseline.FlowCount > 100 then
        [{ Typ := AnomalyTypeUnusualTime, Severity := SeverityLow,
           Description := "Activity detected during typically inactive hour: "
             ++ toString (hourOf flow.LastSeen) ++ ":00",
           Flow := flow, Timestamp := "" }]
      else []
    a1 ++ a2 ++ a3 ++ a4 ++ a5

/-- An empty-history baseline for the C5 scenario. -/
def baselineC5 : DeviceBaseline :=
  { DeviceMAC := "aa:bb:cc:dd:ee:01", FirstSeen := 0, LastUpdated := 0,
    FlowCount := 0, TypicalApps := [], TypicalDestinations := [],
    TypicalTrafficClasses := [], TypicalCountries := [],
    TypicalHourlyActivity := List.replicate 24 0,
    TotalBytes := 0, TotalPackets := 0 }

/-- A flow to a high-risk country never seen in the baseline. -/
def flowC5 : Flow :=
  { (Flow.blank ⟨"10.0.0.5", "198.51.100.7", 1000, 443, "TCP"⟩ 0 "TCP") with
      DstCountry := "RU" }

/-- A flow carrying no application label, no domain and no dst IP. -/
def flowC7 : Flow := Flow.blank ⟨"", "", 0, 0, ""⟩ 0 ""

/-- The baseline reached by one `UpdateBaseline` call on `flowC7`. -/
def baselineC7 : DeviceBaseline :=
  (lookupKey ((NewBaselineTracker 0).UpdateBaseline 0 "aa:bb:cc:dd:ee:02"
      (some flowC7)).baselines "aa:bb:cc:dd:ee:02").getD
    (freshBaseline "aa:bb:cc:dd:ee:02" flowC7)

/-- A flow with an application label for the C10 scenario. -/
def flowC10 : Flow :=
  { (Flow.blank ⟨"10.0.0.5", "198.51.100.7", 1000, 443, "TCP"⟩ 7200 "TCP") with
      Application := "HTTPS", ByteCount := 900, LastSeen := 7200 }

/-- The baseline reached by one `UpdateBaseline` call on `flowC10`. -/
def baselineC10 : DeviceBaseline :=
  (lookupKey ((NewBaselineTracker 0).UpdateBaseline 5 "aa:bb:cc:dd:ee:03"
      (some flowC10)).baselines "aa:bb:cc:dd:ee:03").getD
    (freshBaseline "aa:bb:cc:dd:ee:03" flowC10)

/-! ## Rogue-AP analyzer (internal/analyzer, rogue module) -/

/-- `models.AccessPoint` (the DB `ID` is omitted). -/
structure AccessPoint where
  BSSID : String
  SSID : String
  Channel : Nat
  Encryption : String
  Vendor : String
  Signal : Int
  FirstSeen : Int
  LastSeen : Int
deriving Repr, DecidableEq

/-- `models.RogueAlert`. -/
structure RogueAlert where
  BSSID : String
  SSID : String
  Severity : String
  Message : String
deriving Repr, DecidableEq

/-- `goIsPrefixOf sub l`: `sub` is a leading segment of `l`. -/
def goIsPrefixOf : List Char → List Char → Bool
  | [], _ => true
  | _ :: _, [] => false
  | a :: as, b :: bs => a = b && goIsPrefixOf as bs

/-- Go `strings.Contains` on the character level (`Contains(s, "")` is
true, as in Go). -/
def goContainsList : List Char → List Char → Bool
  | [], sub => goIsPrefixOf sub []
  | a :: rest, sub => goIsPrefixOf sub (a :: rest) || goContainsList rest sub

/-- Go `strings.Contains`. -/
def goContains (s sub : String) : Bool := goContainsList s.data sub.data

/-- Go `strings.HasPrefix`. -/
def goStartsWith (s pre : String) : Bool := goIsPrefixOf pre.data s.data

/-- ASCII lower-casing of one character (all strings compared here are
ASCII). -/
def goCharToLower (c : Char) : Char :=
  if 65 ≤ c.toNat ∧ c.toNat ≤ 90 then Char.ofNat (c.toNat + 32) else c

/-- Go `strings.ToLower` (ASCII). -/
def goToLower (s : String) : String := ⟨s.data.map goCharToLower⟩

/-- The secure-encryption test of the Evil-Twin rule:
`strings.Contains(enc, "wpa") || strings.Contains(enc, "rsn")` on the
lower-cased label. -/
def isSecureEnc (encryption : String) : Bool :=
  goContains (goToLower encryption) "wpa" || goContains (goToLower encryption) "rsn"

/-- The open-encryption test:
`strings.Contains(enc, "open") || enc == ""` on the lower-cased label. -/
def isOpenEnc (encryption : String) : Bool :=
  goContains (goToLower encryption) "open" || goToLower encryption = ""

/-- First-occurrence deduplication; Go iterates its `ssidMap` in an
unspecified order, and this canonical order is the determinization used
here (the verified facts are order-independent). -/
def firstOcc (seen : List String) : List String → List String
  | [] => []
  | s :: rest =>
    if s ∈ seen then firstOcc seen rest else s :: firstOcc (s :: seen) rest

/-- The CRITICAL alert rule 1 emits for an open AP. -/
def evilTwinAlert (ap : AccessPoint) : RogueAlert :=
  { BSSID := ap.BSSID, SSID := ap.SSID, Severity := "CRITICAL",
    Message := "Evil Twin Detected: Open AP matching secure network SSID" }

/-- The body of the per-SSID-group loop of `DetectRogueAPs`: the
Evil-Twin rule then the Duplicate-SSID rule, appending to the alerts
accumulated so far. -/
def groupStep (aps : List AccessPoint) (alerts : List RogueAlert)
    (ssid : String) : List RogueAlert :=
  let group := aps.filter (fun ap => ap.SSID = ssid)
  let hasSecure := group.any (fun ap => isSecureEnc ap.Encryption)
  let hasOpen := group.any (fun ap => !isSecureEnc ap.Encryption && isOpenEnc ap.Encryption)
  let alerts1 :=
    if hasSecure && hasOpen then
      alerts ++ (group.filter (fun ap => isOpenEnc ap.Encryption)).map evilTwinAlert
    else alerts
  if group.length > 1 then
    let alreadyFlagged := alerts1.any
      (fun alert => alert.SSID = ssid && alert.Severity = "CRITICAL")
    if !alreadyFlagged then
      alerts1 ++ group.map
        (fun ap => { BSSID := ap.BSSID, SSID := ap.SSID, Severity := "WARNING",
                     Message := "Multiple APs sharing SSID (Possible Rogue or Mesh)" })
    else alerts1
  else alerts1

/-- The body of the corporate-impersonation loop (rule 3) of
`DetectRogueAPs`. -/
def rule3Step (alerts : List RogueAlert) (ap : AccessPoint) : List RogueAlert :=
  let enc := goToLower ap.Encryption
  if goContains enc "open" || enc = "" then
    match (["corp", "internal", "secure", "private", "staff", "admin"] : List String).find?
        (fun key => goContains (goToLower ap.SSID) key) with
    | some key =>
      if alerts.any (fun alert => alert.BSSID = ap.BSSID) then alerts
      else alerts ++ [{ BSSID := ap.BSSID, SSID := ap.SSID, Severity := "CRITICAL",
                        Message := "Suspicious Open Network containing '" ++ key ++ "'" }]
    | none => alerts
  else alerts

/-- `DetectRogueAPs(aps)`: group by SSID (ignoring empty and "Hidden"),
run the Evil-Twin and Duplicate-SSID rules per group, then the
suspicious-name rule over every AP. -/
def DetectRogueAPs (aps : List AccessPoint) : List RogueAlert :=
  let validSSIDs := firstOcc []
    ((aps.filter (fun ap => ap.SSID ≠ "" && ap.SSID ≠ "Hidden")).map (fun ap => ap.SSID))
  let alerts := validSSIDs.foldl (groupStep aps) []
  aps.foldl rule3Step alerts

/-- A zero-valued AP literal builder for scenarios. -/
def mkAP (bssid ssid encryption : String) : AccessPoint :=
  { BSSID := bssid, SSID := ssid, Channel := 0, Encryption := encryption,
    Vendor := "", Signal := 0, FirstSeen := 0, LastSeen := 0 }

/-- The spec's Evil-Twin scenario. -/
def apsScenarioC9 : List AccessPoint :=
  [mkAP "AA:BB:CC:DD:EE:01" "Corporate" "WPA2-Ent",
   mkAP "11:22:33:44:55:66" "Corporate" "Open"]

/-- A group whose only "open-looking" AP also contains "wpa": the claim
calls it open, the code's else-if calls it secure. -/
def apsMixedC9 : List AccessPoint :=
  [mkAP "AA:BB:CC:DD:EE:01" "Lab" "WPA2",
   mkAP "AA:BB:CC:DD:EE:02" "Lab" "WPA-Open"]

/-! ## Device tracker (internal/enricher/device.go) -/

/-- `models.Layer2`. -/
structure Layer2 where
  SrcMAC : String
  DstMAC : String
  EtherType : String
deriving Repr, DecidableEq

/-- `models.Device` (the DB `ID` and user label omitted). -/
structure Device where
  MACAddress : String
  IPAddress : String
  Hostname : String
  Vendor : String
  OSFingerprint : String
  DeviceType : String
  FirstSeen : Int
  LastSeen : Int
deriving Repr, DecidableEq

/-- The view of a `gopacket.Packet` that `DeviceTracker.Track` consumes:
the results of `parser.ParseEthernet` and `parser.ParseIP`, the
`parser.GuessOS` verdict, and the capture timestamp. -/
structure TrackPacket where
  layer2 : Option Layer2
  layer3 : Option Layer3
  osGuess : String
  Timestamp : Int
deriving Repr, DecidableEq

/-- `enricher.DeviceTracker`; the OUI catalog is carried as a lookup
function and the persistence collaborator (side effects only) is
dropped. -/
structure DeviceTracker where
  cache : List (String × Device)
  vendorLookup : String → String

/-- `isPrivateIP` (device.go): the string-based check actually coded —
note the bare `"172."` test. -/
def isPrivateIP (ip : String) : Bool :=
  if goStartsWith ip "10." then true
  else if goStartsWith ip "192.168." then true
  else if goStartsWith ip "172." then true
  else if goStartsWith ip "169.254." then true
  else if goStartsWith ip "127." then true
  else if goStartsWith ip "fe80:" then true
  else if goStartsWith ip "fc" || goStartsWith ip "fd" then true
  else false

/-- `strings.ReplaceAll(mac, ":", "")`. -/
def removeColons (s : String) : String := ⟨s.data.filter (fun c => c ≠ ':')⟩

/-- The hostname synthesized for a vendor-less device:
`"Device-" ++ last4hex`. -/
def shortMacSuffix (mac : String) : String :=
  let shortMac := removeColons mac
  if shortMac.data.length > 4 then
    ⟨shortMac.data.drop (shortMac.data.length - 4)⟩
  else shortMac

/-- `DeviceTracker.Track(packet)`: private-source filter, then cache
update or creation. -/
def DeviceTracker.Track (dt : DeviceTracker) (packet : TrackPacket) :
    DeviceTracker × Option Device :=
  match packet.layer2 with
  | none => (dt, none)
  | some layer2 =>
    let mac := layer2.SrcMAC
    let blocked :=
      match packet.layer3 with
      | some l3 => !isPrivateIP l3.SrcIP
      | none => false
    if blocked then (dt, none)
    else
      match lookupKey dt.cache mac with
      | some device =>
        let d1 := { device with LastSeen := packet.Timestamp }
        let d2 :=
          if d1.OSFingerprint = "" ∨ d1.OSFingerprint = "Unknown" then
            if packet.osGuess ≠ "" ∧ packet.osGuess ≠ "Unknown" then
              { d1 with OSFingerprint := packet.osGuess }
            else d1
          else d1
        let d3 :=
          match packet.layer3 with
          | some l3 =>
            if d2.IPAddress ≠ l3.SrcIP then { d2 with IPAddress := l3.SrcIP } else d2
          | none => d2
        ({ dt with cache := setKey dt.cache mac d3 }, some d3)
      | none =>
        let vendor := dt.vendorLookup mac
        let ip :=
          match packet.layer3 with
          | some l3 => l3.SrcIP
          | none => ""
        let hostname :=
          if vendor ≠ "" then vendor ++ "-Device"
          else "Device-" ++ shortMacSuffix mac
        let device : Device :=
          { MACAddress := mac, IPAddress := ip, Hostname := hostname,
            Vendor := vendor, OSFingerprint := packet.osGuess,
            DeviceType := "Unknown", FirstSeen := packet.Timestamp,
            LastSeen := packet.Timestamp }
        ({ dt with cache := setKey dt.cache mac device }, some device)

/-- Decimal digit value. -/
def digitVal? (c : Char) : Option Nat :=
  if 48 ≤ c.toNat ∧ c.toNat ≤ 57 then some (c.toNat - 48) else none

/-- Parse a non-empty all-digit character list. -/
def digitsToNat? : List Char → Option Nat
  | [] => none
  | l =>
    l.foldl (fun acc c =>
      match acc, digitVal? c with
      | some n, some d => some (n * 10 + d)
      | _, _ => none) (some 0)

/-- Split a character list on `'.'`. -/
def splitDot : List Char → List (List Char)
  | [] => [[]]
  | c :: rest =>
    if c = '.' then [] :: splitDot rest
    else
      match splitDot rest with
      | g :: gs => (c :: g) :: gs
      | [] => [[c]]

/-- Parse a dotted-quad IPv4 address. -/
def parseIPv4 (s : String) : Option (Nat × Nat × Nat × Nat) :=
  match splitDot s.data with
  | [a, b, c, d] =>
    match digitsToNat? a, digitsToNat? b, digitsToNat? c, digitsToNat? d with
    | some oa, some ob, some oc, some od =>
      if oa ≤ 255 ∧ ob ≤ 255 ∧ oc ≤ 255 ∧ od ≤ 255 then some (oa, ob, oc, od)
      else none
    | _, _, _, _ => none
  | _ => none

/-- Hex digit value (both cases). -/
def hexVal? (c : Char) : Option Nat :=
  if 48 ≤ c.toNat ∧ c.toNat ≤ 57 then some (c.toNat - 48)
  else if 97 ≤ c.toNat ∧ c.toNat ≤ 102 then some (c.toNat - 87)
  else if 65 ≤ c.toNat ∧ c.toNat ≤ 70 then some (c.toNat - 55)
  else none

/-- The leading hex group of a textual IPv6 address (before the first
`':'`). -/
def parseLeadingHexGroup : List Char → Option Nat
  | l =>
    let group := l.takeWhile (fun c => c ≠ ':')
    if group.length = 0 ∨ 4 < group.length ∨ group.length = l.length then none
    else
      group.foldl (fun acc c =>
        match acc, hexVal? c with
        | some n, some d => some (n * 16 + d)
        | _, _ => none) (some 0)

/-- Modelled from the spec: membership of an address in the ranges the
claim lists — {10.0.0.0/8, 172.16.0.0/12, 192.168.0.0/16, 127.0.0.0/8,
169.254.0.0/16, fe80::/10, fc00::/7} — by actual CIDR arithmetic, the
spec-side definition the code is compared against. -/
def inClaimedPrivateRanges (ip : String) : Bool :=
  match parseIPv4 ip with
  | some (a, b, _, _) =>
    a = 10 || (a = 172 && 16 ≤ b && b ≤ 31) || (a = 192 && b = 168)
      || a = 127 || (a = 169 && b = 254)
  | none =>
    match parseLeadingHexGroup ip.data with
    | some g => (0xfe80 ≤ g && g ≤ 0xfebf) || (0xfc00 ≤ g && g ≤ 0xfdff)
    | none => false

/-- A device tracker with an empty cache and an empty OUI catalog. -/
def emptyTracker : DeviceTracker := { cache := [], vendorLookup := fun _ => "" }

/-- A packet whose source IP 172.5.1.1 is outside every claimed private
range but inside the code's bare `"172."` test. -/
def packetC6 : TrackPacket :=
  { layer2 := some ⟨"aa:bb:cc:dd:ee:99", "ff:ff:ff:ff:ff:ff", "IPv4"⟩,
    layer3 := some ⟨"172.5.1.1", "8.8.8.8", "IPv4", "TCP", 64⟩,
    osGuess := "Linux/Apple/iOS", Timestamp := 100 }

/-- The single flow produced by the in-order C8 scenario. -/
def flowC8witness : Flow :=
  ((processCalls (NewFlowTable none none)
      [(0, packetEarly), (0, packetLate)]).GetActiveFlows).headD
    (Flow.blank ⟨"", "", 0, 0, ""⟩ 0 "")

/-! ## JA3 fingerprinting (internal/parser/ja3.go) -/

/-- `isGREASE(value)`: 16-bit values of the form `0x?a?a` with equal
high nibbles. -/
def isGREASE (value : Nat) : Bool :=
  ((value &&& 0x0f0f) == 0x0a0a) && (((value >>> 8) &&& 0xf0) == (value &&& 0xf0))

/-- `binary.BigEndian.Uint16(payload[offset:offset+2])` on a byte list. -/
def be16 (payload : List Nat) (offset : Nat) : Nat :=
  256 * payload.getD offset 0 + payload.getD (offset + 1) 0

/-- `parser.JA3Data`. -/
structure JA3Data where
  SSLVersion : Nat
  CipherSuites : List Nat
  Extensions : List Nat
  EllipticCurves : List Nat
  EllipticCurveFormats : List Nat
deriving Repr, DecidableEq

/-- The cipher-suite loop of `extractJA3Data`
(`for i := 0; i < cipherSuitesLen; i += 2`), returning the collected
non-GREASE ciphers and the final offset.  `fuel` (callers pass `csLen`,
at least the iteration count) only bounds the recursion. -/
def cipherLoop (payload : List Nat) : Nat → Nat → Nat → Nat → List Nat × Nat
  | 0, _, _, offset => ([], offset)
  | fuel + 1, csLen, i, offset =>
    if i < csLen then
      if offset + 2 > payload.length then ([], offset)
      else
        let cipher := be16 payload offset
        let r := cipherLoop payload fuel csLen (i + 2) (offset + 2)
        (if isGREASE cipher then r.1 else cipher :: r.1, r.2)
    else ([], offset)

/-- The scan loop of `parseEllipticCurves`; `fuel` (callers pass
`data.length`, at least the iteration count) only bounds the recursion. -/
def curvesLoop (data : List Nat) : Nat → Nat → Nat → List Nat
  | 0, _, _ => []
  | fuel + 1, listLen, offset =>
    if offset + 2 ≤ data.length ∧ offset < 2 + listLen then
      let curve := be16 data offset
      if isGREASE curve then curvesLoop data fuel listLen (offset + 2)
      else curve :: curvesLoop data fuel listLen (offset + 2)
    else []

/-- `parseEllipticCurves(data)`: GREASE-filtered supported groups. -/
def parseEllipticCurves (data : List Nat) : List Nat :=
  if data.length < 2 then [] else curvesLoop data data.length (be16 data 0) 2

/-- The scan loop of `parseECPointFormats` (no GREASE filtering);
`fuel` (callers pass `data.length`) only bounds the recursion. -/
def formatsLoop (data : List Nat) : Nat → Nat → Nat → List Nat
  | 0, _, _ => []
  | fuel + 1, listLen, offset =>
    if offset < data.length ∧ offset < 1 + listLen then
      data.getD offset 0 :: formatsLoop data fuel listLen (offset + 1)
    else []

/-- `parseECPointFormats(data)`. -/
def parseECPointFormats (data : List Nat) : List Nat :=
  if data.length < 1 then [] else formatsLoop data data.length (data.getD 0 0) 1

/-- The body of the extensions loop of `extractJA3Data` applied to one
already-located extension (type, slice): record non-GREASE types and
parse the two JA3 sub-lists. -/
def goExt (d : JA3Data) (extType : Nat) (extData : List Nat) : JA3Data :=
  if isGREASE extType then d
  else
    { d with Extensions := d.Extensions ++ [extType],
             EllipticCurves :=
               if extType = 10 then parseEllipticCurves extData else d.EllipticCurves,
             EllipticCurveFormats :=
               if extType = 11 then parseECPointFormats extData else d.EllipticCurveFormats }

/-- The extensions loop of `extractJA3Data`; `fuel` (callers pass
`endOfExt`, at least the iteration count since each pass consumes at
least 4 bytes) only bounds the recursion. -/
def extLoop (payload : List Nat) : Nat → Nat → Nat → JA3Data → JA3Data
  | 0, _, _, d => d
  | fuel + 1, endOfExt, offset, d =>
    if offset + 4 ≤ endOfExt then
      let extType := be16 payload offset
      let extLen := be16 payload (offset + 2)
      if offset + 4 + extLen > endOfExt then d
      else
        extLoop payload fuel endOfExt (offset + 4 + extLen)
          (goExt d extType ((payload.drop (offset + 4)).take extLen))
    else d

/-- `extractJA3Data` on the TCP payload bytes (the gopacket TCP-layer
extraction wrapper is the caller's concern; a packet without a TCP layer
yields no payload and no JA3). -/
def extractJA3Data (payload : List Nat) : Option JA3Data :=
  if payload.length < 43 then none
  else if ¬(payload.getD 0 0 = 22 ∧ payload.getD 5 0 = 1) then none
  else if 9 + 2 > payload.length then none
  else
    let sslVersion := be16 payload 9
    if 43 > payload.length then none
    else if 43 + 1 > payload.length then none
    else
      let sessionIDLen := payload.getD 43 0
      let offset1 := 43 + 1 + sessionIDLen
      if offset1 > payload.length then none
      else if offset1 + 2 > payload.length then none
      else
        let cipherSuitesLen := be16 payload offset1
        let offset2 := offset1 + 2
        if offset2 + cipherSuitesLen > payload.length then none
        else
          let r := cipherLoop payload cipherSuitesLen cipherSuitesLen 0 offset2
          if r.2 + 1 > payload.length then none
          else
            let compMethodsLen := payload.getD r.2 0
            let offset4 := r.2 + 1 + compMethodsLen
            if offset4 > payload.length then none
            else
              let d0 : JA3Data := ⟨sslVersion, r.1, [], [], []⟩
              if offset4 + 2 > payload.length then some d0
              else
                let extensionsLen := be16 payload offset4
                let offset5 := offset4 + 2
                let endOfExt := min (offset5 + extensionsLen) payload.length
                some (extLoop payload endOfExt endOfExt offset5 d0)

/-- `buildJA3String(data)`:
`version,c1-c2-…,e1-e2-…,g1-g2-…,f1-f2-…`. -/
def buildJA3String (d : JA3Data) : String :=
  String.intercalate ","
    [toString d.SSLVersion,
     String.intercalate "-" (d.CipherSuites.map toString),
     String.intercalate "-" (d.Extensions.map toString),
     String.intercalate "-" (d.EllipticCurves.map toString),
     String.intercalate "-" (d.EllipticCurveFormats.map toString)]

/-! ### MD5 (crypto/md5), over `Nat` with explicit `% 2^32` -/

/-- The per-round left-rotation amounts. -/
def md5s : List Nat :=
  [7, 12, 17, 22, 7, 12, 17, 22, 7, 12, 17, 22, 7, 12, 17, 22,
   5, 9, 14, 20, 5, 9, 14, 20, 5, 9, 14, 20, 5, 9, 14, 20,
   4, 11, 16, 23, 4, 11, 16, 23, 4, 11, 16, 23, 4, 11, 16, 23,
   6, 10, 15, 21, 6, 10, 15, 21, 6, 10, 15, 21, 6, 10, 15, 21]

/-- The sine-derived round constants `⌊|sin(i+1)|·2^32⌋`. -/
def md5K : List Nat :=
  [0xd76aa478, 0xe8c7b756, 0x242070db, 0xc1bdceee,
   0xf57c0faf, 0x4787c62a, 0xa8304613, 0xfd469501,
   0x698098d8, 0x8b44f7af, 0xffff5bb1, 0x895cd7be,
   0x6b901122, 0xfd987193, 0xa679438e, 0x49b40821,
   0xf61e2562, 0xc040b340, 0x265e5a51, 0xe9b6c7aa,
   0xd62f105d, 0x02441453, 0xd8a1e681, 0xe7d3fbc8,
   0x21e1cde6, 0xc33707d6, 0xf4d50d87, 0x455a14ed,
   0xa9e3e905, 0xfcefa3f8, 0x676f02d9, 0x8d2a4c8a,
   0xfffa3942, 0x8771f681, 0x6d9d6122, 0xfde5380c,
   0xa4beea44, 0x4bdecfa9, 0xf6bb4b60, 0xbebfbc70,
   0x289b7ec6, 0xeaa127fa, 0xd4ef3085, 0x04881d05,
   0xd9d4d039, 0xe6db99e5, 0x1fa27cf8, 0xc4ac5665,
   0xf4292244, 0x432aff97, 0xab9423a7, 0xfc93a039,
   0x655b59c3, 0x8f0ccc92, 0xffeff47d, 0x85845dd1,
   0x6fa87e4f, 0xfe2ce6e0, 0xa3014314, 0x4e0811a1,
   0xf7537e82, 0xbd3af235, 0x2ad7d2bb, 0xeb86d391]

/-- 32-bit left rotation (the two summands occupy disjoint bit ranges). -/
def rotl32 (x n : Nat) : Nat := x * 2 ^ n % 4294967296 + x / 2 ^ (32 - n)

/-- Little-endian bytes of an 8-byte quantity. -/
def le64 (n : Nat) : List Nat := (List.range 8).map (fun i => n / 256 ^ i % 256)

/-- Little-endian bytes of a 32-bit word. -/
def le32 (n : Nat) : List Nat := (List.range 4).map (fun i => n / 256 ^ i % 256)

/-- MD5 padding: `0x80`, zeros to 56 mod 64, then the 64-bit bit count. -/
def md5pad (m : List Nat) : List Nat :=
  let z := (56 + 64 - (m.length + 1) % 64) % 64
  m ++ [0x80] ++ List.replicate z 0 ++ le64 (8 * m.length)

/-- Word `j` of a 64-byte block, little-endian. -/
def leWord (block : List Nat) (j : Nat) : Nat :=
  block.getD (4 * j) 0 + 256 * (block.getD (4 * j + 1) 0
    + 256 * (block.getD (4 * j + 2) 0 + 256 * block.getD (4 * j + 3) 0))

/-- One MD5 round (i of 64); complement is `2^32 - 1 - x`. -/
def md5round (M : Nat → Nat) (st : Nat × Nat × Nat × Nat) (i : Nat) :
    Nat × Nat × Nat × Nat :=
  let A := st.1
  let B := st.2.1
  let C := st.2.2.1
  let D := st.2.2.2
  let F :=
    if i < 16 then (B &&& C) ||| ((4294967295 - B) &&& D)
    else if i < 32 then (D &&& B) ||| ((4294967295 - D) &&& C)
    else if i < 48 then B ^^^ C ^^^ D
    else C ^^^ (B ||| (4294967295 - D))
  let g :=
    if i < 16 then i
    else if i < 32 then (5 * i + 1) % 16
    else if i < 48 then (3 * i + 5) % 16
    else 7 * i % 16
  let Fv := (F + A + md5K.getD i 0 + M g) % 4294967296
  (D, (B + rotl32 Fv (md5s.getD i 0)) % 4294967296, B, C)

/-- Process one 64-byte block. -/
def md5block (st : Nat × Nat × Nat × Nat) (block : List Nat) :
    Nat × Nat × Nat × Nat :=
  let M := leWord block
  let r := (List.range 64).foldl (md5round M) st
  ((st.1 + r.1) % 4294967296, (st.2.1 + r.2.1) % 4294967296,
   (st.2.2.1 + r.2.2.1) % 4294967296, (st.2.2.2 + r.2.2.2) % 4294967296)

/-- Split into 64-byte chunks (padded input length is a multiple of
64). -/
def chunks64 (l : List Nat) : List (List Nat) :=
  (List.range (l.length / 64)).map (fun i => (l.drop (64 * i)).take 64)

/-- The 16 MD5 digest bytes of a byte list. -/
def md5bytes (m : List Nat) : List Nat :=
  let r := (chunks64 (md5pad m)).foldl md5block
    (0x67452301, 0xefcdab89, 0x98badcfe, 0x10325476)
  le32 r.1 ++ le32 r.2.1 ++ le32 r.2.2.1 ++ le32 r.2.2.2

/-- Lowercase hex digit. -/
def hexChar (n : Nat) : Char :=
  if n < 10 then Char.ofNat (48 + n) else Char.ofNat (87 + n)

/-- The bytes of a string; agrees with Go's `[]byte(s)` (UTF-8) on the
ASCII strings JA3 builds. -/
def strBytes (s : String) : List Nat := s.data.map Char.toNat

/-- Lowercase-hex MD5 of a string (`fmt.Sprintf("%x", md5.Sum(...))`). -/
def md5Hex (s : String) : String :=
  ⟨((md5bytes (strBytes s)).map (fun b => [hexChar (b / 16), hexChar (b % 16)])).flatten⟩

/-- `CalculateJA3(packet)` on the TCP payload bytes. -/
def CalculateJA3 (payload : List Nat) : String :=
  match extractJA3Data payload with
  | none => ""
  | some d =>
    let ja3String := buildJA3String d
    if ja3String = "" then "" else md5Hex ja3String

/-! ### Synthetic Client Hellos (the claim's quantification domain) -/

/-- A TLS extension: type and raw body. -/
structure Extension where
  extType : Nat
  body : List Nat
deriving Repr, DecidableEq

/-- A structured Client Hello, serialized by `encodeClientHello`. -/
structure ClientHello where
  version : Nat
  random : List Nat
  sessionId : List Nat
  ciphers : List Nat
  compressionMethods : List Nat
  extensions : List Extension
deriving Repr, DecidableEq

/-- Big-endian bytes of a 16-bit value. -/
def be16bytes (v : Nat) : List Nat := [v / 256, v % 256]

/-- Big-endian bytes of a 24-bit value. -/
def be24bytes (v : Nat) : List Nat := [v / 65536, v / 256 % 256, v % 256]

/-- Wire encoding of one extension. -/
def encExt (e : Extension) : List Nat :=
  be16bytes e.extType ++ be16bytes e.body.length ++ e.body

/-- Wire encoding of an extension list. -/
def extBytes (exts : List Extension) : List Nat := (exts.map encExt).flatten

/-- The Client Hello body (after the handshake header). -/
def chBody (ch : ClientHello) : List Nat :=
  be16bytes ch.version ++ ch.random ++ [ch.sessionId.length] ++ ch.sessionId
    ++ be16bytes (2 * ch.ciphers.length) ++ (ch.ciphers.map be16bytes).flatten
    ++ [ch.compressionMethods.length] ++ ch.compressionMethods
    ++ be16bytes (extBytes ch.extensions).length ++ extBytes ch.extensions

/-- The full TCP payload: TLS record header (type 22, version 3.1,
length), handshake header (type 1, length), body. -/
def encodeClientHello (ch : ClientHello) : List Nat :=
  [22, 3, 1] ++ be16bytes (4 + (chBody ch).length)
    ++ [1] ++ be24bytes (chBody ch).length ++ chBody ch

/-- All entries are bytes. -/
def bytesOK (l : List Nat) : Prop := ∀ b ∈ l, b < 256

/-- The well-formedness conditions under which `encodeClientHello`
produces the wire image of the structured hello. -/
def wellFormedCH (ch : ClientHello) : Prop :=
  ch.version < 65536
  ∧ ch.random.length = 32
  ∧ bytesOK ch.random
  ∧ ch.sessionId.length ≤ 255
  ∧ bytesOK ch.sessionId
  ∧ 2 * ch.ciphers.length ≤ 65535
  ∧ (∀ c ∈ ch.ciphers, c < 65536)
  ∧ ch.compressionMethods.length ≤ 255
  ∧ bytesOK ch.compressionMethods
  ∧ (∀ e ∈ ch.extensions, e.extType < 65536 ∧ e.body.length ≤ 65535 ∧ bytesOK e.body)
  ∧ (extBytes ch.extensions).length ≤ 65535
  ∧ (chBody ch).length + 4 ≤ 65535

/-- The JA3-relevant reading of a structured hello: what `extractJA3Data`
computes on its encoding. -/
def ja3DataOf (ch : ClientHello) : JA3Data :=
  ch.extensions.foldl (fun d e => goExt d e.extType e.body)
    ⟨ch.version, ch.ciphers.filter (fun c => !isGREASE c), [], [], []⟩

/-- The claim's equivalence on structured hellos: equal after erasing the
session id, the SNI (type 0) body, and GREASE values in the cipher,
extension and supported-groups lists.  The ec_point_formats body is kept
verbatim (the code does not GREASE-filter it — see the counterexample). -/
def normExt (e : Extension) : Option (Nat × List Nat) :=
  if isGREASE e.extType then none
  else some (e.extType,
    if e.extType = 0 then []
    else if e.extType = 10 then parseEllipticCurves e.body
    else e.body)

/-- The amended-claim normal form of a hello. -/
def normalizeCH (ch : ClientHello) : Nat × List Nat × List Nat × List Nat × List (Nat × List Nat) :=
  (ch.version, ch.random, ch.ciphers.filter (fun c => !isGREASE c),
   ch.compressionMethods, ch.extensions.filterMap normExt)

/-- Strip 16-bit GREASE words from a byte list (the claim's reading of
"GREASE values removed from the ec_point_formats list"); spec-side only. -/
def stripGreaseWords : List Nat → List Nat
  | a :: b :: rest =>
    if isGREASE (256 * a + b) then stripGreaseWords rest
    else a :: stripGreaseWords (b :: rest)
  | l => l

/-- One step of the JA3 fold, on a normalized (type, body) pair; used to
show that `ja3DataOf` is determined by `normalizeCH`. -/
def goExtNorm (d : JA3Data) (p : Nat × List Nat) : JA3Data :=
  { d with Extensions := d.Extensions ++ [p.1],
           EllipticCurves := if p.1 = 10 then p.2 else d.EllipticCurves,
           EllipticCurveFormats :=
             if p.1 = 11 then parseECPointFormats p.2 else d.EllipticCurveFormats }

/-- Counterexample hello for C4: ec_point_formats (extension 11) carries
the single format 0. -/
def chC4fmt1 : ClientHello :=
  { version := 771, random := List.replicate 32 0, sessionId := [],
    ciphers := [49195, 49199], compressionMethods := [0],
    extensions := [⟨11, [1, 0]⟩] }

/-- `chC4fmt1` with the GREASE word `0x0a0a` inserted in front of the
ec_point_formats list. -/
def chC4fmt2 : ClientHello :=
  { version := 771, random := List.replicate 32 0, sessionId := [],
    ciphers := [49195, 49199], compressionMethods := [0],
    extensions := [⟨11, [3, 10, 10, 0]⟩] }

/-- Witness hello for C4: carries a GREASE cipher (0x0a0a), a GREASE
extension (type 0x0a0a), a GREASE supported group (0x1a1a), a session id
and an SNI body. -/
def chC4g1 : ClientHello :=
  { version := 771, random := List.replicate 32 7, sessionId := [170, 187],
    ciphers := [2570, 49195], compressionMethods := [0],
    extensions := [⟨0, [1, 2, 3]⟩, ⟨2570, [0]⟩, ⟨10, [0, 6, 26, 26, 0, 29]⟩] }

/-- `chC4g1` with all GREASE values removed, the session id dropped and a
different SNI body. -/
def chC4g2 : ClientHello :=
  { version := 771, random := List.replicate 32 7, sessionId := [],
    ciphers := [49195], compressionMethods := [0],
    extensions := [⟨0, [9, 9, 9, 9]⟩, ⟨10, [0, 2, 0, 29]⟩] }

/-! ## Theorems -/

lemma lookup_addAll (entry : DNSEntry) :
    ∀ (IPS : List String) (base : List (String × DNSEntry)) (ip : String),
      lookupKey (IPS.foldl (fun acc IP => (IP, entry) :: acc) base) ip
        = if ip ∈ IPS then some entry else lookupKey base ip := by
  intro IPS
  induction IPS with
  | nil => intro base ip; simp
  | cons x xs ih =>
    intro base ip
    simp only [List.foldl_cons, ih, List.mem_cons]
    by_cases hxs : ip ∈ xs
    · simp [hxs]
    · by_cases hx : ip = x
      · simp [hxs, hx, lookupKey]
      · have : ¬ x = ip := fun h => hx h.symm
        simp [hxs, hx, lookupKey, this]

lemma resolve_add_mem (C : DNSCache) (now : Int) (Domain : String)
    (IPS : List String) (TTL : Nat) (IP : String) (t : Int) (h : IP ∈ IPS) :
    (C.Add now Domain IPS TTL).Resolve t IP
      = if t ≤ now + (effectiveTTL TTL : Nat) then Domain else "" := by
  simp only [DNSCache.Add, DNSCache.Resolve, lookup_addAll, h, if_true]
  by_cases hle : t ≤ now + (effectiveTTL TTL : Nat)
  · have : ¬ now + (effectiveTTL TTL : Nat) < t := not_lt.mpr hle
    simp [hle, this]
  · have : now + (effectiveTTL TTL : Nat) < t := lt_of_not_ge hle
    simp [hle, this]

/-- C2, the claim as stated, is false on the code: `Add` keeps a nonzero
TTL as is (the 300 s default applies only to TTL = 0), so an entry added
with TTL 1 at time 0 is already expired at time 2, although the claimed
window `[0, 0 + max(1, 300)]` still contains 2.  This matches the
repository's own expiration test. -/
theorem C2_counterexample :
    (DNSCache.Resolve (DNSCache.Add NewDNSCache 0 "expired.com" ["10.0.0.1"] 1)
        2 "10.0.0.1" = "")
    ∧ (2 : Int) ≤ 0 + max (1 : Int) 300 := by
  constructor
  · rfl
  · norm_num

/-- C2 (amended): `Add(d, ips, ttl)` maps each ip to `(d, now + ttl')`
where `ttl' = ttl` when `ttl ≠ 0` and `ttl' = 300` when `ttl = 0`;
`Resolve(ip)` at time `t` returns the domain of the latest insert exactly
while `t ≤ insert + ttl'`, leaves unrelated IPs untouched, and returns ""
on a never-inserted ip. -/
theorem C2_dns_cache_contract :
    (∀ (C : DNSCache) (now : Int) (Domain : String) (IPS : List String)
        (TTL : Nat) (IP : String) (t : Int), IP ∈ IPS →
      (C.Add now Domain IPS TTL).Resolve t IP
        = if t ≤ now + (effectiveTTL TTL : Nat) then Domain else "")
    ∧ (∀ (C : DNSCache) (now : Int) (Domain : String) (IPS : List String)
        (TTL : Nat) (IP : String) (t : Int), IP ∉ IPS →
      (C.Add now Domain IPS TTL).Resolve t IP = C.Resolve t IP)
    ∧ (∀ (t : Int) (IP : String), NewDNSCache.Resolve t IP = "") := by
  refine ⟨resolve_add_mem, ?_, ?_⟩
  · intro C now Domain IPS TTL IP t h
    simp [DNSCache.Add, DNSCache.Resolve, lookup_addAll, h]
  · intro t IP
    rfl

/-- Witness for C2: concrete instantiations discharging each hypothesis. -/
theorem C2_dns_cache_contract_witness :
    (DNSCache.Resolve (DNSCache.Add NewDNSCache 0 "example.com" ["1.2.3.4"] 120)
        60 "1.2.3.4" = "example.com")
    ∧ (DNSCache.Resolve (DNSCache.Add NewDNSCache 0 "example.com" ["1.2.3.4"] 120)
        60 "5.6.7.8" = DNSCache.Resolve NewDNSCache 60 "5.6.7.8")
    ∧ DNSCache.Resolve NewDNSCache 60 "9.9.9.9" = "" := by
  refine ⟨?_, ?_, C2_dns_cache_contract.2.2 60 "9.9.9.9"⟩
  · have h := C2_dns_cache_contract.1 NewDNSCache 0 "example.com" ["1.2.3.4"]
      120 "1.2.3.4" 60 (by simp)
    simpa using h
  · exact C2_dns_cache_contract.2.1 NewDNSCache 0 "example.com" ["1.2.3.4"]
      120 "5.6.7.8" 60 (by simp)

lemma char_eq_of_toNat_eq {a b : Char} (h : a.toNat = b.toNat) : a = b :=
  Char.eq_of_val_eq (UInt32.eq_of_toBitVec_eq (BitVec.eq_of_toNat_eq h))

lemma goCharListLt_trichotomy : ∀ x y : List Char,
    (goCharListLt x y = true ∧ goCharListLt y x = false)
    ∨ (goCharListLt x y = false ∧ goCharListLt y x = true)
    ∨ (x = y ∧ goCharListLt x y = false ∧ goCharListLt y x = false) := by
  intro x
  induction x with
  | nil =>
    intro y
    cases y with
    | nil => right; right; exact ⟨rfl, rfl, rfl⟩
    | cons b bs => left; exact ⟨rfl, rfl⟩
  | cons a as ih =>
    intro y
    cases y with
    | nil => right; left; exact ⟨rfl, rfl⟩
    | cons b bs =>
      rcases Nat.lt_trichotomy a.toNat b.toNat with h | h | h
      · left
        refine ⟨by simp [goCharListLt, h], by simp [goCharListLt, h, Nat.lt_asymm h]⟩
      · have hab : a = b := char_eq_of_toNat_eq h
        subst hab
        rcases ih bs with ⟨h1, h2⟩ | ⟨h1, h2⟩ | ⟨he, h1, h2⟩
        · left; exact ⟨by simp [goCharListLt, h1], by simp [goCharListLt, h2]⟩
        · right; left; exact ⟨by simp [goCharListLt, h1], by simp [goCharListLt, h2]⟩
        · right; right
          exact ⟨by rw [he], by simp [goCharListLt, h1], by simp [goCharListLt, h2]⟩
      · right; left
        refine ⟨by simp [goCharListLt, h, Nat.lt_asymm h], by simp [goCharListLt, h]⟩

lemma goStringLt_trichotomy (a b : String) :
    (goStringLt a b = true ∧ goStringLt b a = false ∧ a ≠ b)
    ∨ (goStringLt a b = false ∧ goStringLt b a = true ∧ a ≠ b)
    ∨ (a = b ∧ goStringLt a b = false ∧ goStringLt b a = false) := by
  have hdata : a.data = b.data → a = b := by
    intro h
    cases a; cases b
    exact congrArg String.mk h
  rcases goCharListLt_trichotomy a.data b.data with ⟨h1, h2⟩ | ⟨h1, h2⟩ | ⟨he, h1, h2⟩
  · left
    refine ⟨h1, h2, ?_⟩
    intro hab; subst hab
    rw [h1] at h2
    exact absurd h2 (by simp)
  · right; left
    refine ⟨h1, h2, ?_⟩
    intro hab; subst hab
    rw [h2] at h1
    exact absurd h1 (by simp)
  · right; right
    exact ⟨hdata he, h1, h2⟩

lemma processDNSResponse_flows (FT : FlowTable) (now : Int) (P : Packet) :
    (processDNSResponse FT now P).flows = FT.flows := by
  unfold processDNSResponse
  cases hD : P.DNS with
  | none => rfl
  | some dns => dsimp only; split_ifs <;> rfl

lemma enrichNewFlow_PacketCount (FT : FlowTable) (now : Int) (K : FlowKey) (F : Flow) :
    (enrichNewFlow FT now K F).PacketCount = F.PacketCount := by
  unfold enrichNewFlow
  dsimp only
  repeat' split
  all_goals rfl

lemma enrichNewFlow_FirstSeen (FT : FlowTable) (now : Int) (K : FlowKey) (F : Flow) :
    (enrichNewFlow FT now K F).FirstSeen = F.FirstSeen := by
  unfold enrichNewFlow
  dsimp only
  repeat' split
  all_goals rfl

lemma enrichNewFlow_Key (FT : FlowTable) (now : Int) (K : FlowKey) (F : Flow) :
    (enrichNewFlow FT now K F).Key = F.Key := by
  unfold enrichNewFlow
  dsimp only
  repeat' split
  all_goals rfl

lemma applyPacketStats_PacketCount (FT : FlowTable) (P : Packet) (F : Flow) :
    (applyPacketStats FT P F).PacketCount = F.PacketCount + 1 := by
  unfold applyPacketStats
  dsimp only
  repeat' split
  all_goals rfl

lemma applyPacketStats_FirstSeen (FT : FlowTable) (P : Packet) (F : Flow) :
    (applyPacketStats FT P F).FirstSeen = F.FirstSeen := by
  unfold applyPacketStats
  dsimp only
  repeat' split
  all_goals rfl

lemma applyPacketStats_LastSeen (FT : FlowTable) (P : Packet) (F : Flow) :
    (applyPacketStats FT P F).LastSeen = P.Timestamp := by
  unfold applyPacketStats
  dsimp only
  repeat' split
  all_goals rfl

lemma applyPacketStats_Key (FT : FlowTable) (P : Packet) (F : Flow) :
    (applyPacketStats FT P F).Key = F.Key := by
  unfold applyPacketStats
  dsimp only
  repeat' split
  all_goals rfl

lemma FlowTable.update_some (FT : FlowTable) (now : Int) (P : Packet)
    (l3 : Layer3) (l4 : Layer4) (h3 : P.Layer3 = some l3) (h4 : P.Layer4 = some l4) :
    FT.Update now P =
      ({ processDNSResponse FT now P with
          flows := setFlow (processDNSResponse FT now P).flows (makeFlowKey l3 l4)
            (applyPacketStats (processDNSResponse FT now P) P
              (match lookupKey (processDNSResponse FT now P).flows (makeFlowKey l3 l4) with
               | some F => F
               | none => enrichNewFlow (processDNSResponse FT now P) now (makeFlowKey l3 l4)
                   (Flow.blank (makeFlowKey l3 l4) P.Timestamp l4.Protocol))) },
       some (applyPacketStats (processDNSResponse FT now P) P
              (match lookupKey (processDNSResponse FT now P).flows (makeFlowKey l3 l4) with
               | some F => F
               | none => enrichNewFlow (processDNSResponse FT now P) now (makeFlowKey l3 l4)
                   (Flow.blank (makeFlowKey l3 l4) P.Timestamp l4.Protocol)))) := by
  unfold FlowTable.Update
  rw [h3, h4]

/-- C1: the canonical FlowKey is invariant under source/destination swap,
and feeding both directions of one 5-tuple into `Update` leaves exactly one
flow in the table, with `PacketCount` 2. -/
theorem C1_canonical_key_bidirectional :
    (∀ (l3 : Layer3) (l4 : Layer4),
       makeFlowKey l3.reversed l4.reversed = makeFlowKey l3 l4)
    ∧ (∀ (FT : FlowTable) (now1 now2 : Int) (p1 p2 : Packet)
         (l3 : Layer3) (l4 : Layer4),
        FT.flows = [] →
        p1.Layer3 = some l3 → p1.Layer4 = some l4 →
        p2.Layer3 = some l3.reversed → p2.Layer4 = some l4.reversed →
        (((FT.Update now1 p1).1.Update now2 p2).1.GetActiveFlows.length = 1
         ∧ ∀ F ∈ ((FT.Update now1 p1).1.Update now2 p2).1.GetActiveFlows,
             F.PacketCount = 2)) := by
  have hkey : ∀ (l3 : Layer3) (l4 : Layer4),
      makeFlowKey l3.reversed l4.reversed = makeFlowKey l3 l4 := by
    intro l3 l4
    obtain ⟨a, b, ver, pr3, ttl⟩ := l3
    obtain ⟨sp, dp, pr4⟩ := l4
    unfold makeFlowKey Layer3.reversed Layer4.reversed
    dsimp only
    rcases goStringLt_trichotomy a b with ⟨h1, h2, hne⟩ | ⟨h1, h2, hne⟩
      | ⟨he, h1, h2⟩
    · have hne' : b ≠ a := fun h => hne h.symm
      simp [h1, h2, hne, hne']
    · have hne' : b ≠ a := fun h => hne h.symm
      simp [h1, h2, hne, hne']
    · subst he
      rcases Nat.lt_trichotomy (sp % 65536) (dp % 65536) with hp | hp | hp
      · simp [h1, h2, hp, Nat.lt_asymm hp]
      · simp [h1, h2, hp]
      · simp [h1, h2, hp, Nat.lt_asymm hp]
  refine ⟨hkey, ?_⟩
  intro FT now1 now2 p1 p2 l3 l4 hflows h13 h14 h23 h24
  rw [FlowTable.update_some FT now1 p1 l3 l4 h13 h14]
  rw [FlowTable.update_some _ now2 p2 l3.reversed l4.reversed h23 h24]
  rw [hkey l3 l4]
  set K := makeFlowKey l3 l4 with hK
  simp only [processDNSResponse_flows, hflows, lookupKey, setFlow]
  set FT1 := processDNSResponse FT now1 p1 with hFT1
  set F1 := applyPacketStats FT1 p1
      (enrichNewFlow FT1 now1 K (Flow.blank K p1.Timestamp l4.Protocol)) with hF1
  have hcount1 : F1.PacketCount = 1 := by
    rw [hF1, applyPacketStats_PacketCount, enrichNewFlow_PacketCount]
    rfl
  simp only [FlowTable.GetActiveFlows, processDNSResponse_flows, lookupKey,
    setFlow, eq_self_iff_true, if_true, List.map_cons, List.map_nil,
    List.length_cons, List.length_nil, List.mem_cons, List.not_mem_nil,
    or_false]
  refine ⟨trivial, ?_⟩
  intro F hF
  subst hF
  rw [applyPacketStats_PacketCount, hcount1]

/-- Witness for C1: the spec's concrete canonicalization scenario. -/
theorem C1_canonical_key_bidirectional_witness :
    (((NewFlowTable none none).Update 0 p1Scenario).1.Update 0 p2Scenario).1.GetActiveFlows.length = 1
    ∧ ∀ F ∈ (((NewFlowTable none none).Update 0 p1Scenario).1.Update 0 p2Scenario).1.GetActiveFlows,
        F.PacketCount = 2 :=
  C1_canonical_key_bidirectional.2 (NewFlowTable none none) 0 0 p1Scenario p2Scenario
    l3Scenario l4Scenario rfl rfl rfl rfl rfl

lemma applyPacketStats_DstDomain (FT : FlowTable) (P : Packet) (F : Flow) :
    (applyPacketStats FT P F).DstDomain = F.DstDomain := by
  unfold applyPacketStats
  dsimp only
  repeat' split
  all_goals rfl

lemma enrichNewFlow_DstDomain (FT : FlowTable) (now : Int) (K : FlowKey) (F0 : Flow) :
    (enrichNewFlow FT now K F0).DstDomain =
      (if FT.dnsCache.Resolve now K.SrcIP ≠ "" then FT.dnsCache.Resolve now K.SrcIP
       else if FT.dnsCache.Resolve now K.DstIP ≠ "" then FT.dnsCache.Resolve now K.DstIP
       else F0.DstDomain) := by
  unfold enrichNewFlow
  dsimp only
  repeat' split
  all_goals rfl

/-- C3, the claim as stated, is false on the code: when both canonical
endpoints resolve, `Update` stores the src-IP resolution, not the dst-IP
one. -/
theorem C3_counterexample :
    ((flowTableC3.Update 0 packetC3).2.map Flow.DstDomain = some "src.example")
    ∧ flowTableC3.dnsCache.Resolve 0 "1.1.1.1" = "src.example"
    ∧ flowTableC3.dnsCache.Resolve 0 "9.9.9.9" = "dst.example"
    ∧ ("src.example" : String) ≠ "dst.example" := by
  refine ⟨by decide, by decide, by decide, by decide⟩

/-- C3 (amended): a flow created by `Update` gets its `DstDomain` by
resolving both canonical endpoints in the (possibly just updated) DNS
cache; the first non-empty result wins, and when both IPs resolve the
src-IP result is the one stored. -/
theorem C3_new_flow_domain (FT : FlowTable) (now : Int) (P : Packet)
    (l3 : Layer3) (l4 : Layer4)
    (h3 : P.Layer3 = some l3) (h4 : P.Layer4 = some l4)
    (hnew : lookupKey (processDNSResponse FT now P).flows (makeFlowKey l3 l4) = none) :
    ∀ F, (FT.Update now P).2 = some F →
      F.DstDomain =
        (if (processDNSResponse FT now P).dnsCache.Resolve now (makeFlowKey l3 l4).SrcIP ≠ ""
         then (processDNSResponse FT now P).dnsCache.Resolve now (makeFlowKey l3 l4).SrcIP
         else (processDNSResponse FT now P).dnsCache.Resolve now (makeFlowKey l3 l4).DstIP) := by
  intro F hF
  rw [FlowTable.update_some FT now P l3 l4 h3 h4] at hF
  simp only [hnew] at hF
  have hF' : F = applyPacketStats (processDNSResponse FT now P) P
      (enrichNewFlow (processDNSResponse FT now P) now (makeFlowKey l3 l4)
        (Flow.blank (makeFlowKey l3 l4) P.Timestamp l4.Protocol)) := by
    exact (Option.some.inj hF).symm
  rw [hF', applyPacketStats_DstDomain, enrichNewFlow_DstDomain]
  by_cases h1 : (processDNSResponse FT now P).dnsCache.Resolve now (makeFlowKey l3 l4).SrcIP ≠ ""
  · simp [h1]
  · by_cases h2 : (processDNSResponse FT now P).dnsCache.Resolve now (makeFlowKey l3 l4).DstIP ≠ ""
    · simp [h1, h2]
    · simp only [not_not] at h1 h2
      simp [h1, h2, Flow.blank]

/-- Witness for C3: the amended rule evaluated on a concrete new flow. -/
theorem C3_new_flow_domain_witness :
    (flowTableC3.Update 0 packetC3).2.map Flow.DstDomain = some "src.example" := by
  cases hF : (flowTableC3.Update 0 packetC3).2 with
  | none => exact absurd hF (by decide)
  | some F =>
    have h := C3_new_flow_domain flowTableC3 0 packetC3
      ⟨"1.1.1.1", "9.9.9.9", "IPv4", "TCP", 64⟩ ⟨1234, 443, "TCP"⟩
      rfl rfl (by decide) F hF
    show some F.DstDomain = some "src.example"
    rw [h]
    decide

lemma lookupKey_setFlow_self :
    ∀ (l : List (FlowKey × Flow)) (K : FlowKey) (f : Flow),
      lookupKey (setFlow l K f) K = some f := by
  intro l K f
  induction l with
  | nil => simp [setFlow, lookupKey]
  | cons kf rest ih =>
    obtain ⟨k', f'⟩ := kf
    by_cases h : k' = K
    · subst h; simp [setFlow, lookupKey]
    · simp [setFlow, lookupKey, h, ih]

lemma lookupKey_setFlow_ne :
    ∀ (l : List (FlowKey × Flow)) (K K' : FlowKey) (f : Flow), K' ≠ K →
      lookupKey (setFlow l K f) K' = lookupKey l K' := by
  intro l K K' f hne
  have hne' : ¬ K = K' := fun h => hne h.symm
  induction l with
  | nil => simp [setFlow, lookupKey, hne']
  | cons kf rest ih =>
    obtain ⟨k', f'⟩ := kf
    by_cases h : k' = K
    · subst h; simp [setFlow, lookupKey, hne']
    · simp [setFlow, lookupKey, h, ih]

lemma mem_setFlow :
    ∀ (l : List (FlowKey × Flow)) (K : FlowKey) (f : Flow) (kf : FlowKey × Flow),
      kf ∈ setFlow l K f → kf = (K, f) ∨ kf ∈ l := by
  intro l K f kf
  induction l with
  | nil => intro h; simp [setFlow] at h; left; exact h
  | cons kf0 rest ih =>
    obtain ⟨k', f'⟩ := kf0
    intro h
    by_cases hk : k' = K
    · subst hk
      simp [setFlow] at h
      rcases h with h | h
      · left; simpa using h
      · right; simp [h]
    · simp [setFlow, hk] at h
      rcases h with h | h
      · right; simp [h]
      · rcases ih h with h' | h'
        · left; exact h'
        · right; simp [h']

lemma lookup_mem {α β : Type} [DecidableEq α] :
    ∀ (l : List (α × β)) (k : α) (v : β), lookupKey l k = some v → (k, v) ∈ l := by
  intro l k v
  induction l with
  | nil => intro h; simp [lookupKey] at h
  | cons kv rest ih =>
    obtain ⟨k', v'⟩ := kv
    intro h
    by_cases hk : k' = k
    · subst hk
      simp [lookupKey] at h
      simp [h]
    · simp [lookupKey, hk] at h
      right; exact ih h

lemma lookup_none_iff {α β : Type} [DecidableEq α] :
    ∀ (l : List (α × β)) (k : α), lookupKey l k = none ↔ k ∉ l.map Prod.fst := by
  intro l k
  induction l with
  | nil => simp [lookupKey]
  | cons kv rest ih =>
    obtain ⟨k', v'⟩ := kv
    by_cases hk : k' = k
    · subst hk; simp [lookupKey]
    · have hstep : lookupKey ((k', v') :: rest) k = lookupKey rest k := by
        simp [lookupKey, hk]
      rw [hstep, ih]
      simp only [List.map_cons, List.mem_cons]
      constructor
      · intro h hor
        rcases hor with h1 | h1
        · exact hk h1.symm
        · exact h h1
      · intro h h1
        exact h (Or.inr h1)

lemma mem_lookup_of_nodup {α β : Type} [DecidableEq α] :
    ∀ (l : List (α × β)) (k : α) (v : β),
      (l.map Prod.fst).Nodup → (k, v) ∈ l → lookupKey l k = some v := by
  intro l k v
  induction l with
  | nil => intro _ h; simp at h
  | cons kv rest ih =>
    obtain ⟨k', v'⟩ := kv
    intro hnd hm
    have hnd' : (rest.map Prod.fst).Nodup := (List.nodup_cons.mp hnd).2
    have hk'notin : k' ∉ rest.map Prod.fst := (List.nodup_cons.mp hnd).1
    rcases List.mem_cons.mp hm with h | h
    · have h1 : k = k' := congrArg Prod.fst h
      have h2 : v = v' := congrArg Prod.snd h
      subst h1; subst h2
      simp [lookupKey]
    · by_cases hk : k' = k
      · subst hk
        exact absurd (List.mem_map.mpr ⟨(k', v), h, rfl⟩) hk'notin
      · simp [lookupKey, hk]
        exact ih hnd' h

lemma setFlow_map_fst :
    ∀ (l : List (FlowKey × Flow)) (K : FlowKey) (f : Flow),
      (setFlow l K f).map Prod.fst
        = if (lookupKey l K).isSome then l.map Prod.fst else l.map Prod.fst ++ [K] := by
  intro l K f
  induction l with
  | nil => simp [setFlow, lookupKey]
  | cons kf rest ih =>
    obtain ⟨k', f'⟩ := kf
    by_cases hk : k' = K
    · subst hk; simp [setFlow, lookupKey]
    · simp [setFlow, lookupKey, hk, ih]
      by_cases hs : (lookupKey rest K).isSome <;> simp [hs]

lemma update_eq_of_flowKey_none (FT : FlowTable) (now : Int) (P : Packet)
    (h : P.flowKey? = none) : FT.Update now P = (FT, none) := by
  unfold Packet.flowKey? at h
  unfold FlowTable.Update
  cases h3 : P.Layer3 <;> cases h4 : P.Layer4 <;> simp [h3, h4] at h ⊢

lemma flowKey_some_layers (P : Packet) (K : FlowKey) (h : P.flowKey? = some K) :
    ∃ l3 l4, P.Layer3 = some l3 ∧ P.Layer4 = some l4 ∧ makeFlowKey l3 l4 = K := by
  unfold Packet.flowKey? at h
  cases h3 : P.Layer3 with
  | none => rw [h3] at h; cases h
  | some l3 =>
    cases h4 : P.Layer4 with
    | none => rw [h3, h4] at h; cases h
    | some l4 =>
      rw [h3, h4] at h
      exact ⟨l3, l4, rfl, rfl, Option.some.inj h⟩

lemma keysConsistent_update (FT : FlowTable) (now : Int) (P : Packet)
    (h : KeysConsistent FT) : KeysConsistent (FT.Update now P).1 := by
  cases hk : P.flowKey? with
  | none => rw [update_eq_of_flowKey_none FT now P hk]; exact h
  | some K =>
    obtain ⟨l3, l4, h3, h4, hkey⟩ := flowKey_some_layers P K hk
    rw [FlowTable.update_some FT now P l3 l4 h3 h4]
    intro kf hmem
    dsimp only at hmem
    rcases mem_setFlow _ _ _ _ hmem with heq | hold
    · subst heq
      show (applyPacketStats _ P _).Key = _
      rw [applyPacketStats_Key]
      cases hl : lookupKey (processDNSResponse FT now P).flows (makeFlowKey l3 l4) with
      | some F =>
        have hm := lookup_mem _ _ _ hl
        rw [processDNSResponse_flows] at hm
        exact h _ hm
      | none =>
        rw [enrichNewFlow_Key]
        rfl
    · rw [processDNSResponse_flows] at hold
      exact h _ hold

lemma flowsBounded_mono {FT : FlowTable} {lb lb' : Int}
    (h : FlowsBounded FT lb) (hle : lb ≤ lb') : FlowsBounded FT lb' :=
  fun kf hm => ⟨(h kf hm).1, le_trans (h kf hm).2 hle⟩

lemma flowsBounded_update (FT : FlowTable) (now : Int) (P : Packet) (lb : Int)
    (hb : FlowsBounded FT lb) (hle : lb ≤ P.Timestamp) :
    FlowsBounded (FT.Update now P).1 P.Timestamp := by
  cases hk : P.flowKey? with
  | none =>
    rw [update_eq_of_flowKey_none FT now P hk]
    exact flowsBounded_mono hb hle
  | some K =>
    obtain ⟨l3, l4, h3, h4, hkey⟩ := flowKey_some_layers P K hk
    rw [FlowTable.update_some FT now P l3 l4 h3 h4]
    intro kf hmem
    dsimp only at hmem
    rcases mem_setFlow _ _ _ _ hmem with heq | hold
    · subst heq
      refine ⟨?_, ?_⟩
      · show (applyPacketStats _ P _).FirstSeen ≤ (applyPacketStats _ P _).LastSeen
        rw [applyPacketStats_FirstSeen, applyPacketStats_LastSeen]
        cases hl : lookupKey (processDNSResponse FT now P).flows (makeFlowKey l3 l4) with
        | some F =>
          have hm := lookup_mem _ _ _ hl
          rw [processDNSResponse_flows] at hm
          exact le_trans (hb _ hm).1 (le_trans (hb _ hm).2 hle)
        | none =>
          rw [enrichNewFlow_FirstSeen]
          exact le_refl _
      · show (applyPacketStats _ P _).LastSeen ≤ P.Timestamp
        rw [applyPacketStats_LastSeen]
    · rw [processDNSResponse_flows] at hold
      exact ⟨(hb _ hold).1, le_trans (hb _ hold).2 hle⟩

lemma nodupKeys_update (FT : FlowTable) (now : Int) (P : Packet)
    (h : NodupKeys FT) : NodupKeys (FT.Update now P).1 := by
  cases hk : P.flowKey? with
  | none => rw [update_eq_of_flowKey_none FT now P hk]; exact h
  | some K =>
    obtain ⟨l3, l4, h3, h4, hkey⟩ := flowKey_some_layers P K hk
    rw [FlowTable.update_some FT now P l3 l4 h3 h4]
    show ((setFlow (processDNSResponse FT now P).flows (makeFlowKey l3 l4) _).map
      Prod.fst).Nodup
    rw [setFlow_map_fst, processDNSResponse_flows]
    by_cases hs : (lookupKey FT.flows (makeFlowKey l3 l4)).isSome
    · simpa [hs] using h
    · have hnone : lookupKey FT.flows (makeFlowKey l3 l4) = none :=
        Option.not_isSome_iff_eq_none.mp hs
      have hout : makeFlowKey l3 l4 ∉ FT.flows.map Prod.fst :=
        (lookup_none_iff _ _).mp hnone
      simp only [hs, if_false]
      refine List.Nodup.append h (List.nodup_singleton _) ?_
      intro a ha hb
      simp at hb
      subst hb
      exact hout ha

lemma keysConsistent_processCalls :
    ∀ (calls : List (Int × Packet)) (ft : FlowTable),
      KeysConsistent ft → KeysConsistent (processCalls ft calls) := by
  intro calls
  induction calls with
  | nil => intro ft h; exact h
  | cons nc rest ih =>
    intro ft h
    obtain ⟨n, q⟩ := nc
    exact ih _ (keysConsistent_update ft n q h)

lemma nodupKeys_processCalls :
    ∀ (calls : List (Int × Packet)) (ft : FlowTable),
      NodupKeys ft → NodupKeys (processCalls ft calls) := by
  intro calls
  induction calls with
  | nil => intro ft h; exact h
  | cons nc rest ih =>
    intro ft h
    obtain ⟨n, q⟩ := nc
    exact ih _ (nodupKeys_update ft n q h)

lemma flow_bounds_persist :
    ∀ (calls : List (Int × Packet)) (ft : FlowTable) (lb : Int)
      (K : FlowKey) (f0 : Flow) (c : Int),
      lookupKey ft.flows K = some f0 →
      FlowsBounded ft lb →
      List.Sorted (· ≤ ·) (lb :: calls.map (fun x => x.2.Timestamp)) →
      f0.FirstSeen ≤ c → c ≤ f0.LastSeen → c ≤ lb →
      ∃ f, lookupKey (processCalls ft calls).flows K = some f
        ∧ f.FirstSeen ≤ c ∧ c ≤ f.LastSeen := by
  intro calls
  induction calls with
  | nil =>
    intro ft lb K f0 c hl hb _ h1 h2 _
    exact ⟨f0, hl, h1, h2⟩
  | cons nc rest ih =>
    intro ft lb K f0 c hl hb hs h1 h2 hclb
    obtain ⟨n, q⟩ := nc
    have hsq : lb ≤ q.Timestamp := by
      have := (List.sorted_cons.mp hs).1
      exact this q.Timestamp (by simp)
    have hs' : List.Sorted (· ≤ ·)
        (q.Timestamp :: rest.map (fun x => x.2.Timestamp)) := by
      have := (List.sorted_cons.mp hs).2
      simpa using this
    simp only [processCalls]
    cases hk : q.flowKey? with
    | none =>
      rw [update_eq_of_flowKey_none ft n q hk]
      exact ih ft q.Timestamp K f0 c hl (flowsBounded_mono hb hsq) hs' h1 h2
        (le_trans hclb hsq)
    | some Kq =>
      obtain ⟨l3, l4, h3, h4, hkey⟩ := flowKey_some_layers q Kq hk
      have hb' : FlowsBounded (ft.Update n q).1 q.Timestamp :=
        flowsBounded_update ft n q lb hb hsq
      by_cases hKq : makeFlowKey l3 l4 = K
      · -- the head call updates exactly the tracked flow
        have hl1 : lookupKey (processDNSResponse ft n q).flows (makeFlowKey l3 l4)
            = some f0 := by
          rw [processDNSResponse_flows, hKq]; exact hl
        have hlook : lookupKey ((ft.Update n q).1).flows K
            = some (applyPacketStats (processDNSResponse ft n q) q f0) := by
          rw [FlowTable.update_some ft n q l3 l4 h3 h4]
          dsimp only
          rw [← hKq, lookupKey_setFlow_self, hl1]
        exact ih _ q.Timestamp K _ c hlook hb' hs'
          (by rw [applyPacketStats_FirstSeen]; exact h1)
          (by rw [applyPacketStats_LastSeen]; exact le_trans hclb hsq)
          (le_trans hclb hsq)
      · have hlook : lookupKey ((ft.Update n q).1).flows K = some f0 := by
          rw [FlowTable.update_some ft n q l3 l4 h3 h4]
          dsimp only
          rw [lookupKey_setFlow_ne _ _ _ _ (fun h => hKq h.symm),
            processDNSResponse_flows]
          exact hl
        exact ih _ q.Timestamp K f0 c hlook hb' hs' h1 h2 (le_trans hclb hsq)

lemma contributed_bounds_aux :
    ∀ (calls : List (Int × Packet)) (ft : FlowTable) (lb : Int),
      FlowsBounded ft lb →
      List.Sorted (· ≤ ·) (lb :: calls.map (fun x => x.2.Timestamp)) →
      ∀ c ∈ calls, ∀ K, c.2.flowKey? = some K →
        ∃ f, lookupKey (processCalls ft calls).flows K = some f
          ∧ f.FirstSeen ≤ c.2.Timestamp ∧ c.2.Timestamp ≤ f.LastSeen := by
  intro calls
  induction calls with
  | nil => intro ft lb _ _ c hc; cases hc
  | cons nc rest ih =>
    intro ft lb hfb hs c hc K hK
    obtain ⟨n, q⟩ := nc
    have hsq : lb ≤ q.Timestamp := (List.sorted_cons.mp hs).1 q.Timestamp (by simp)
    have hs' : List.Sorted (· ≤ ·)
        (q.Timestamp :: rest.map (fun x => x.2.Timestamp)) := by
      have := (List.sorted_cons.mp hs).2
      simpa using this
    have hfb' : FlowsBounded (ft.Update n q).1 q.Timestamp :=
      flowsBounded_update ft n q lb hfb hsq
    simp only [processCalls]
    rcases List.mem_cons.mp hc with rfl | hcrest
    · -- the call under scrutiny is the head call
      obtain ⟨l3, l4, h3, h4, hkey⟩ := flowKey_some_layers q K hK
      -- after the head update the flow at K has FirstSeen ≤ ts and LastSeen = ts
      have hstep : ∃ f1, lookupKey ((ft.Update n q).1).flows K = some f1
          ∧ f1.FirstSeen ≤ q.Timestamp ∧ q.Timestamp ≤ f1.LastSeen := by
        rw [FlowTable.update_some ft n q l3 l4 h3 h4]
        dsimp only
        rw [← hkey, lookupKey_setFlow_self]
        refine ⟨_, rfl, ?_, ?_⟩
        · rw [applyPacketStats_FirstSeen]
          cases hl : lookupKey (processDNSResponse ft n q).flows (makeFlowKey l3 l4) with
          | some F =>
            have hm := lookup_mem _ _ _ hl
            rw [processDNSResponse_flows] at hm
            exact le_trans (hfb _ hm).1 (le_trans (hfb _ hm).2 hsq)
          | none =>
            rw [enrichNewFlow_FirstSeen]
            exact le_refl _
        · rw [applyPacketStats_LastSeen]
      obtain ⟨f1, hlf1, hf1a, hf1b⟩ := hstep
      exact flow_bounds_persist rest ((ft.Update n q).1) q.Timestamp K f1
        q.Timestamp hlf1 hfb' hs' hf1a hf1b (le_refl _)
    · exact ih ((ft.Update n q).1) q.Timestamp hfb' hs' c hcrest K hK

/-- C8, the claim as stated, is false on the code: `Update` overwrites
`LastSeen` with each packet's timestamp and never lowers `FirstSeen`, so
with out-of-order timestamps (10 then 5) the final flow has
`FirstSeen = 10 > 5` although the packet with timestamp 5 contributed to
it (both packets carry the same 5-tuple). -/
theorem C8_counterexample :
    ((processCalls (NewFlowTable none none)
        [(0, packetLate), (0, packetEarly)]).GetActiveFlows.map
      (fun F => (F.FirstSeen, F.LastSeen)) = [((10 : Int), (5 : Int))])
    ∧ packetEarly.flowKey? = packetLate.flowKey?
    ∧ packetEarly.Timestamp = 5
    ∧ ¬ ((10 : Int) ≤ 5) := by
  refine ⟨by decide, by decide, by decide, by decide⟩

/-- C8 (amended): when the packets are fed to `Update` in non-decreasing
timestamp order, every flow F in the table satisfies
`F.first_seen ≤ P.timestamp ≤ F.last_seen` for every packet P that
contributed to F (same canonical key). -/
theorem C8_flow_time_bounds :
    ∀ (FT : FlowTable) (calls : List (Int × Packet)),
      FT.flows = [] →
      List.Sorted (· ≤ ·) (calls.map (fun x => x.2.Timestamp)) →
      ∀ F ∈ (processCalls FT calls).GetActiveFlows,
        ∀ c ∈ calls, c.2.flowKey? = some F.Key →
          F.FirstSeen ≤ c.2.Timestamp ∧ c.2.Timestamp ≤ F.LastSeen := by
  intro FT calls hflows hs F hF c hc hK
  cases calls with
  | nil => cases hc
  | cons c0 rest =>
    have hs0 : List.Sorted (· ≤ ·)
        (c0.2.Timestamp :: (c0 :: rest).map (fun x => x.2.Timestamp)) := by
      refine List.sorted_cons.mpr ⟨?_, hs⟩
      intro b hb
      simp only [List.map_cons, List.mem_cons] at hb
      rcases hb with rfl | hbm
      · exact le_refl _
      · exact (List.sorted_cons.mp (by simpa using hs)).1 b hbm
    have hfb : FlowsBounded FT c0.2.Timestamp := by
      intro kf hm; rw [hflows] at hm; cases hm
    have hkc : KeysConsistent FT := by
      intro kf hm; rw [hflows] at hm; cases hm
    have hnd : NodupKeys FT := by
      show (FT.flows.map Prod.fst).Nodup
      rw [hflows]; exact List.nodup_nil
    obtain ⟨f, hlf, hb1, hb2⟩ :=
      contributed_bounds_aux (c0 :: rest) FT c0.2.Timestamp hfb hs0 c hc F.Key hK
    have hkc' : KeysConsistent (processCalls FT (c0 :: rest)) :=
      keysConsistent_processCalls _ _ hkc
    have hnd' : NodupKeys (processCalls FT (c0 :: rest)) :=
      nodupKeys_processCalls _ _ hnd
    obtain ⟨kf, hkfm, hkf2⟩ := List.mem_map.mp hF
    have hkey1 : kf.1 = F.Key := by
      rw [← hkf2]; exact (hkc' kf hkfm).symm
    have hpair : (F.Key, F) ∈ (processCalls FT (c0 :: rest)).flows := by
      have : kf = (F.Key, F) := by
        obtain ⟨k1, f1⟩ := kf
        simp only at hkey1 hkf2
        rw [hkey1, hkf2]
      rwa [this] at hkfm
    have hlook : lookupKey (processCalls FT (c0 :: rest)).flows F.Key = some F :=
      mem_lookup_of_nodup _ _ _ hnd' hpair
    rw [hlook] at hlf
    obtain rfl : f = F := (Option.some.inj hlf).symm
    exact ⟨hb1, hb2⟩

/-- Witness for C8: the two-packet scenario in chronological order; the
single resulting flow brackets the later packet's timestamp. -/
theorem C8_flow_time_bounds_witness :
    flowC8witness.FirstSeen ≤ packetLate.Timestamp
    ∧ packetLate.Timestamp ≤ flowC8witness.LastSeen :=
  C8_flow_time_bounds (NewFlowTable none none) [(0, packetEarly), (0, packetLate)]
    rfl (by decide) flowC8witness (by decide) (0, packetLate) (by decide) (by decide)

lemma sumCounts_bumpCount :
    ∀ (m : List (String × Nat)) (k : String),
      sumCounts (bumpCount m k) = sumCounts m + 1 := by
  intro m k
  induction m with
  | nil => simp [bumpCount, sumCounts]
  | cons kv rest ih =>
    obtain ⟨k', n⟩ := kv
    by_cases hk : k' = k
    · subst hk
      simp [bumpCount, sumCounts]
      omega
    · simp [bumpCount, sumCounts, hk] at ih ⊢
      omega

lemma sum_set_bump :
    ∀ (l : List Nat) (i : Nat), i < l.length →
      (l.set i (l.getD i 0 + 1)).sum = l.sum + 1 := by
  intro l
  induction l with
  | nil => intro i h; simp at h
  | cons x rest ih =>
    intro i h
    cases i with
    | zero => simp [List.set]; omega
    | succ j =>
      simp only [List.set, List.getD_cons_succ, List.sum_cons]
      have := ih j (by simpa using h)
      omega

lemma hourOf_lt (t : Int) : hourOf t < 24 := by
  unfold hourOf
  have h1 : t % 86400 < 86400 := Int.emod_lt_of_pos t (by norm_num)
  have h2 : (t % 86400).toNat < 86400 := by omega
  omega

lemma mem_setKey {α β : Type} [DecidableEq α] :
    ∀ (l : List (α × β)) (k : α) (v : β) (kv : α × β),
      kv ∈ setKey l k v → kv = (k, v) ∨ kv ∈ l := by
  intro l k v kv
  induction l with
  | nil => intro h; simp [setKey] at h; left; exact h
  | cons kv0 rest ih =>
    obtain ⟨k', v'⟩ := kv0
    intro h
    by_cases hk : k' = k
    · subst hk
      simp [setKey] at h
      rcases h with h | h
      · left; simpa using h
      · right; simp [h]
    · simp [setKey, hk] at h
      rcases h with h | h
      · right; simp [h]
      · rcases ih h with h' | h'
        · left; exact h'
        · right; simp [h']

lemma lookupKey_setKey_self {α β : Type} [DecidableEq α] :
    ∀ (l : List (α × β)) (k : α) (v : β), lookupKey (setKey l k v) k = some v := by
  intro l k v
  induction l with
  | nil => simp [setKey, lookupKey]
  | cons kv rest ih =>
    obtain ⟨k', v'⟩ := kv
    by_cases h : k' = k
    · subst h; simp [setKey, lookupKey]
    · simp [setKey, lookupKey, h, ih]

lemma updateBaselineFields_FlowCount (now : Int) (flow : Flow) (b : DeviceBaseline) :
    (updateBaselineFields now flow b).FlowCount = b.FlowCount + 1 := by
  unfold updateBaselineFields
  dsimp only
  repeat' split
  all_goals rfl

lemma updateBaselineFields_hourly (now : Int) (flow : Flow) (b : DeviceBaseline) :
    (updateBaselineFields now flow b).TypicalHourlyActivity
      = b.TypicalHourlyActivity.set (hourOf flow.LastSeen)
          (b.TypicalHourlyActivity.getD (hourOf flow.LastSeen) 0 + 1) := by
  unfold updateBaselineFields
  dsimp only
  repeat' split
  all_goals rfl

lemma updateBaselineFields_apps (now : Int) (flow : Flow) (b : DeviceBaseline) :
    (updateBaselineFields now flow b).TypicalApps = b.TypicalApps
    ∨ (updateBaselineFields now flow b).TypicalApps = bumpCount b.TypicalApps flow.Application := by
  unfold updateBaselineFields
  dsimp only
  repeat' split
  all_goals simp

lemma updateBaselineFields_dest (now : Int) (flow : Flow) (b : DeviceBaseline) :
    (updateBaselineFields now flow b).TypicalDestinations = b.TypicalDestinations
    ∨ (updateBaselineFields now flow b).TypicalDestinations
        = bumpCount b.TypicalDestinations flow.DstDomain
    ∨ (updateBaselineFields now flow b).TypicalDestinations
        = bumpCount b.TypicalDestinations flow.Key.DstIP := by
  unfold updateBaselineFields
  dsimp only
  repeat' split
  all_goals simp

lemma baselineInv_fresh (mac : String) (flow : Flow) :
    BaselineInv (freshBaseline mac flow) := by
  refine ⟨by simp [freshBaseline], by simp [freshBaseline, sumCounts], ?_, ?_⟩
  · simp [freshBaseline, sumCounts, List.sum_replicate]
  · simp [freshBaseline, sumCounts]

lemma baselineInv_updateFields (now : Int) (flow : Flow) (b : DeviceBaseline)
    (hb : BaselineInv b) : BaselineInv (updateBaselineFields now flow b) := by
  obtain ⟨hlen, happs, hsum, hdest⟩ := hb
  refine ⟨?_, ?_, ?_, ?_⟩
  · rw [updateBaselineFields_hourly]
    simpa using hlen
  · rw [updateBaselineFields_FlowCount]
    rcases updateBaselineFields_apps now flow b with h | h <;> rw [h]
    · omega
    · rw [sumCounts_bumpCount]; omega
  · rw [updateBaselineFields_hourly, updateBaselineFields_FlowCount]
    rw [sum_set_bump _ _ (by rw [hlen]; exact hourOf_lt _)]
    omega
  · rw [updateBaselineFields_FlowCount]
    rcases updateBaselineFields_dest now flow b with h | h | h <;> rw [h]
    · omega
    · rw [sumCounts_bumpCount]; omega
    · rw [sumCounts_bumpCount]; omega

lemma baselineInv_update (bt : BaselineTracker) (now : Int) (mac : String)
    (flow : Option Flow) (h : ∀ mb ∈ bt.baselines, BaselineInv (mb : String × DeviceBaseline).2) :
    ∀ mb ∈ (bt.UpdateBaseline now mac flow).baselines, BaselineInv mb.2 := by
  intro mb hm
  cases flow with
  | none => exact h mb hm
  | some flow =>
    by_cases hmac : mac = ""
    · subst hmac
      simp [BaselineTracker.UpdateBaseline] at hm
      exact h mb hm
    · simp only [BaselineTracker.UpdateBaseline] at hm
      rw [if_neg hmac] at hm
      rcases mem_setKey _ _ _ _ hm with heq | hold
      · subst heq
        cases hl : lookupKey bt.baselines mac with
        | some b =>
          simp only [hl]
          exact baselineInv_updateFields now flow b (h _ (lookup_mem _ _ _ hl))
        | none =>
          simp only [hl]
          exact baselineInv_updateFields now flow _ (baselineInv_fresh mac flow)
      · exact h mb hold

lemma baselineInv_run :
    ∀ (calls : List (Int × String × Option Flow)) (bt : BaselineTracker),
      (∀ mb ∈ bt.baselines, BaselineInv (mb : String × DeviceBaseline).2) →
      ∀ mb ∈ (runBaselineCalls bt calls).baselines, BaselineInv mb.2 := by
  intro calls
  induction calls with
  | nil => intro bt h; exact h
  | cons c rest ih =>
    intro bt h
    obtain ⟨now, mac, flow⟩ := c
    exact ih _ (baselineInv_update bt now mac flow h)

/-- C7, the claim as stated, is false on the code: a flow with no
application label leaves `typical_apps` untouched while the hourly
histogram still gains one, so `Σ histogram = Σ typical_apps` fails; with
no domain and no dst IP `typical_destinations` also stays empty, so
`flow_count ≤ Σ typical_destinations` fails too. -/
theorem C7_counterexample :
    baselineC7.TypicalHourlyActivity.sum = 1
    ∧ sumCounts baselineC7.TypicalApps = 0
    ∧ baselineC7.FlowCount = 1
    ∧ sumCounts baselineC7.TypicalDestinations = 0
    ∧ ¬ ((1 : Nat) = 0)
    ∧ ¬ ((1 : Nat) ≤ 0) := by
  refine ⟨by decide, by decide, by decide, by decide, by decide, by decide⟩

/-- C7 (amended): for every baseline reachable by `UpdateBaseline` calls,
`Σ typical_apps ≤ flow_count`, the 24 hourly buckets sum exactly to
`flow_count`, and `Σ typical_destinations ≤ flow_count`. -/
theorem C7_baseline_sums :
    ∀ (minFlows : Nat) (calls : List (Int × String × Option Flow))
      (mac : String) (b : DeviceBaseline),
      (mac, b) ∈ (runBaselineCalls (NewBaselineTracker minFlows) calls).baselines →
      sumCounts b.TypicalApps ≤ b.FlowCount
      ∧ b.TypicalHourlyActivity.sum = b.FlowCount
      ∧ sumCounts b.TypicalDestinations ≤ b.FlowCount := by
  intro minFlows calls mac b hm
  have h0 : ∀ mb ∈ (NewBaselineTracker minFlows).baselines,
      BaselineInv (mb : String × DeviceBaseline).2 := by
    intro mb hmb
    simp [NewBaselineTracker] at hmb
  have := baselineInv_run calls (NewBaselineTracker minFlows) h0 (mac, b) hm
  exact ⟨this.2.1, this.2.2.1, this.2.2.2⟩

/-- Witness for C7: the single-call scenario with an unlabeled flow. -/
theorem C7_baseline_sums_witness :
    sumCounts baselineC7.TypicalApps ≤ baselineC7.FlowCount
    ∧ baselineC7.TypicalHourlyActivity.sum = baselineC7.FlowCount
    ∧ sumCounts baselineC7.TypicalDestinations ≤ baselineC7.FlowCount :=
  C7_baseline_sums 0 [(0, "aa:bb:cc:dd:ee:02", some flowC7)] "aa:bb:cc:dd:ee:02"
    baselineC7 (by decide)

/-- C10: every effective `UpdateBaseline` call bumps exactly one hourly
bucket and `flow_count` by one, so every reachable baseline has
`Σ hourly = flow_count`, and `GetAverageHourlyActivity` is
`flow_count / 24` (0 when `flow_count` is 0) — it counts flow updates,
not bytes. -/
theorem C10_hourly_flow_average :
    (∀ (bt : BaselineTracker) (now : Int) (mac : String) (flow : Flow),
      mac ≠ "" →
      ∃ old b',
        (lookupKey bt.baselines mac = some old
          ∨ (lookupKey bt.baselines mac = none ∧ old = freshBaseline mac flow))
        ∧ lookupKey (bt.UpdateBaseline now mac (some flow)).baselines mac = some b'
        ∧ b'.FlowCount = old.FlowCount + 1
        ∧ b'.TypicalHourlyActivity
            = old.TypicalHourlyActivity.set (hourOf flow.LastSeen)
                (old.TypicalHourlyActivity.getD (hourOf flow.LastSeen) 0 + 1))
    ∧ (∀ (minFlows : Nat) (calls : List (Int × String × Option Flow))
        (mac : String) (b : DeviceBaseline),
        (mac, b) ∈ (runBaselineCalls (NewBaselineTracker minFlows) calls).baselines →
        b.TypicalHourlyActivity.sum = b.FlowCount
        ∧ b.GetAverageHourlyActivity = (b.FlowCount : ℚ) / 24) := by
  constructor
  · intro bt now mac flow hmac
    cases hl : lookupKey bt.baselines mac with
    | some b =>
      refine ⟨b, updateBaselineFields now flow b, Or.inl rfl, ?_, ?_, ?_⟩
      · simp only [BaselineTracker.UpdateBaseline, if_neg hmac, hl]
        exact lookupKey_setKey_self _ _ _
      · exact updateBaselineFields_FlowCount now flow b
      · exact updateBaselineFields_hourly now flow b
    | none =>
      refine ⟨freshBaseline mac flow, updateBaselineFields now flow (freshBaseline mac flow),
        Or.inr ⟨rfl, rfl⟩, ?_, ?_, ?_⟩
      · simp only [BaselineTracker.UpdateBaseline, if_neg hmac, hl]
        exact lookupKey_setKey_self _ _ _
      · exact updateBaselineFields_FlowCount now flow _
      · exact updateBaselineFields_hourly now flow _
  · intro minFlows calls mac b hm
    have h0 : ∀ mb ∈ (NewBaselineTracker minFlows).baselines,
        BaselineInv (mb : String × DeviceBaseline).2 := by
      intro mb hmb
      simp [NewBaselineTracker] at hmb
    have hinv := baselineInv_run calls (NewBaselineTracker minFlows) h0 (mac, b) hm
    have hsum : b.TypicalHourlyActivity.sum = b.FlowCount := hinv.2.2.1
    refine ⟨hsum, ?_⟩
    unfold DeviceBaseline.GetAverageHourlyActivity
    by_cases hz : b.FlowCount = 0
    · simp [hz]
    · rw [if_neg hz, hsum]

/-- Witness for C10: one call on a 900-byte flow; the average counts the
single flow update, not the bytes. -/
theorem C10_hourly_flow_average_witness :
    (lookupKey ((NewBaselineTracker 0).UpdateBaseline 5 "aa:bb:cc:dd:ee:03"
        (some flowC10)).baselines "aa:bb:cc:dd:ee:03").isSome = true
    ∧ baselineC10.TypicalHourlyActivity.sum = baselineC10.FlowCount
    ∧ baselineC10.GetAverageHourlyActivity = (baselineC10.FlowCount : ℚ) / 24 := by
  have hB := C10_hourly_flow_average.2 0 [(5, "aa:bb:cc:dd:ee:03", some flowC10)]
    "aa:bb:cc:dd:ee:03" baselineC10 (by decide)
  obtain ⟨old, b', _, hlook, _, _⟩ := C10_hourly_flow_average.1 (NewBaselineTracker 0)
    5 "aa:bb:cc:dd:ee:03" flowC10 (by decide)
  exact ⟨by rw [hlook]; rfl, hB.1, hB.2⟩

/-- C5, the claim as stated, is false on the code: `Detect` emits
NEW_GEOGRAPHY with severity MEDIUM unconditionally — even for a country
in the claimed high-risk list (RU) it never raises CRITICAL.  (The
{RU, CN, KP, IR} escalation exists only in the CLI anomaly menu, not in
`AnomalyDetector.Detect`.) -/
theorem C5_counterexample :
    ((NewAnomalyDetector.Detect flowC5 (some baselineC5)).map
        (fun a => (a.Typ, a.Severity)) = [(AnomalyTypeNewGeo, SeverityMedium)])
    ∧ flowC5.DstCountry = "RU"
    ∧ ("RU" ∈ ["RU", "CN", "KP", "IR"])
    ∧ SeverityMedium ≠ SeverityCritical := by
  refine ⟨by decide, by decide, by decide, by decide⟩

/-- C5 (amended): for every flow whose `dst_country` is non-empty and not
in the baseline's typical countries, `Detect` emits a NEW_GEOGRAPHY
anomaly with severity MEDIUM; every NEW_GEOGRAPHY anomaly it ever emits
has severity MEDIUM, regardless of the country. -/
theorem C5_new_geography (flow : Flow) (baseline : DeviceBaseline)
    (h1 : flow.DstCountry ≠ "")
    (h2 : baseline.HasCountry flow.DstCountry = false) :
    ({ Typ := AnomalyTypeNewGeo, Severity := SeverityMedium,
       Description := "Device connected to new country: " ++ flow.DstCountry,
       Flow := flow, Timestamp := "" } : Anomaly)
        ∈ NewAnomalyDetector.Detect flow (some baseline)
    ∧ ∀ a ∈ NewAnomalyDetector.Detect flow (some baseline),
        a.Typ = AnomalyTypeNewGeo → a.Severity = SeverityMedium := by
  constructor
  · simp [AnomalyDetector.Detect, h1, h2]
  · intro a ha ht
    simp only [AnomalyDetector.Detect, List.mem_append] at ha
    rcases ha with ((((h | h) | h) | h) | h) <;>
      split_ifs at h <;> simp at h <;> subst h <;>
      first
        | rfl
        | (dsimp only at ht; exact absurd ht (by decide))

/-- Witness for C5: the RU flow against an empty baseline. -/
theorem C5_new_geography_witness :
    ({ Typ := AnomalyTypeNewGeo, Severity := SeverityMedium,
       Description := "Device connected to new country: " ++ flowC5.DstCountry,
       Flow := flowC5, Timestamp := "" } : Anomaly)
      ∈ NewAnomalyDetector.Detect flowC5 (some baselineC5) :=
  (C5_new_geography flowC5 baselineC5 (by decide) (by decide)).1

/-- C6: the code contradicts its own comment (`// 172.16.0.0/12 block`)
and the claim: `isPrivateIP` accepts every address starting `"172."`, all
of 172.0.0.0/8.  The packet from source 172.5.1.1 — outside every range
the claim lists — is tracked as a local device instead of leaving the
tracker unchanged. -/
theorem C6_private_range_bug :
    isPrivateIP "172.5.1.1" = true
    ∧ inClaimedPrivateRanges "172.5.1.1" = false
    ∧ (emptyTracker.Track packetC6).2.map Device.IPAddress = some "172.5.1.1"
    ∧ (emptyTracker.Track packetC6).1.cache.length = 1
    ∧ emptyTracker.cache.length = 0 := by
  refine ⟨by decide, by decide, by decide, by decide, by decide⟩

lemma mem_firstOcc :
    ∀ (l seen : List String) (x : String), x ∈ l → x ∉ seen →
      x ∈ firstOcc seen l := by
  intro l
  induction l with
  | nil => intro seen x hx; cases hx
  | cons s rest ih =>
    intro seen x hx hns
    by_cases hs : s ∈ seen
    · simp only [firstOcc, if_pos hs]
      rcases List.mem_cons.mp hx with rfl | hx'
      · exact absurd hs hns
      · exact ih seen x hx' hns
    · simp only [firstOcc, if_neg hs]
      rcases List.mem_cons.mp hx with rfl | hx'
      · exact List.mem_cons_self _ _
      · by_cases hxs : x = s
        · subst hxs; exact List.mem_cons_self _ _
        · refine List.mem_cons_of_mem _ (ih (s :: seen) x hx' ?_)
          intro hmem
          rcases List.mem_cons.mp hmem with h | h
          · exact hxs h
          · exact hns h

lemma mem_groupStep_mono (aps : List AccessPoint) (alerts : List RogueAlert)
    (ssid : String) (a : RogueAlert) (h : a ∈ alerts) :
    a ∈ groupStep aps alerts ssid := by
  unfold groupStep
  dsimp only
  split_ifs <;> simp [h]

lemma mem_rule3Step_mono (alerts : List RogueAlert) (ap : AccessPoint)
    (a : RogueAlert) (h : a ∈ alerts) : a ∈ rule3Step alerts ap := by
  unfold rule3Step
  dsimp only
  repeat' split
  all_goals simp [h]

lemma mem_foldl_rule3 :
    ∀ (l : List AccessPoint) (alerts : List RogueAlert) (a : RogueAlert),
      a ∈ alerts → a ∈ l.foldl rule3Step alerts := by
  intro l
  induction l with
  | nil => intro alerts a h; exact h
  | cons ap rest ih =>
    intro alerts a h
    exact ih _ _ (mem_rule3Step_mono alerts ap a h)

lemma groupStep_adds (aps : List AccessPoint) (alerts : List RogueAlert)
    (ssid : String) (ap : AccessPoint)
    (hsec : ∃ s ∈ aps, s.SSID = ssid ∧ isSecureEnc s.Encryption = true)
    (hopen : ∃ o ∈ aps, o.SSID = ssid ∧ isSecureEnc o.Encryption = false
      ∧ isOpenEnc o.Encryption = true)
    (hap : ap ∈ aps) (haps : ap.SSID = ssid)
    (hopenap : isOpenEnc ap.Encryption = true) :
    evilTwinAlert ap ∈ groupStep aps alerts ssid := by
  unfold groupStep
  dsimp only
  have hsec' : (aps.filter (fun x => x.SSID = ssid)).any
      (fun x => isSecureEnc x.Encryption) = true := by
    obtain ⟨s, hs, hss, hsx⟩ := hsec
    exact List.any_eq_true.mpr ⟨s, List.mem_filter.mpr ⟨hs, by simp [hss]⟩, hsx⟩
  have hopen' : (aps.filter (fun x => x.SSID = ssid)).any
      (fun x => !isSecureEnc x.Encryption && isOpenEnc x.Encryption) = true := by
    obtain ⟨o, ho, hos, hne, hox⟩ := hopen
    exact List.any_eq_true.mpr
      ⟨o, List.mem_filter.mpr ⟨ho, by simp [hos]⟩, by simp [hne, hox]⟩
  have hA1 : evilTwinAlert ap
      ∈ alerts ++ ((aps.filter (fun x => x.SSID = ssid)).filter
          (fun x => isOpenEnc x.Encryption)).map evilTwinAlert := by
    refine List.mem_append.mpr (Or.inr ?_)
    exact List.mem_map.mpr
      ⟨ap, List.mem_filter.mpr ⟨List.mem_filter.mpr ⟨hap, by simp [haps]⟩, hopenap⟩, rfl⟩
  simp only [hsec', hopen', Bool.and_self, if_true]
  split_ifs <;> first
    | exact hA1
    | exact List.mem_append.mpr (Or.inl hA1)

lemma mem_foldl_groupStep :
    ∀ (l : List String) (aps : List AccessPoint) (alerts : List RogueAlert)
      (a : RogueAlert), a ∈ alerts → a ∈ l.foldl (groupStep aps) alerts := by
  intro l
  induction l with
  | nil => intro aps alerts a h; exact h
  | cons s rest ih =>
    intro aps alerts a h
    exact ih aps _ a (mem_groupStep_mono aps alerts s a h)

lemma mem_foldl_groupStep_processed :
    ∀ (l : List String) (aps : List AccessPoint) (alerts : List RogueAlert)
      (ssid : String) (ap : AccessPoint), ssid ∈ l →
      (∃ s ∈ aps, s.SSID = ssid ∧ isSecureEnc s.Encryption = true) →
      (∃ o ∈ aps, o.SSID = ssid ∧ isSecureEnc o.Encryption = false
        ∧ isOpenEnc o.Encryption = true) →
      ap ∈ aps → ap.SSID = ssid → isOpenEnc ap.Encryption = true →
      evilTwinAlert ap ∈ l.foldl (groupStep aps) alerts := by
  intro l
  induction l with
  | nil => intro aps alerts ssid ap h; cases h
  | cons s rest ih =>
    intro aps alerts ssid ap hmem hsec hopen hap haps hopenap
    rcases List.mem_cons.mp hmem with rfl | hmem'
    · -- processed in this step, then carried along by monotonicity
      exact mem_foldl_groupStep rest aps _ _
        (groupStep_adds aps alerts _ ap hsec hopen hap haps hopenap)
    · exact ih aps _ ssid ap hmem' hsec hopen hap haps hopenap

/-- C9, the claim as stated, is false on the code: in the group
{("Lab", "WPA2"), ("Lab", "WPA-Open")} there is an AP whose encryption
contains "wpa"/"rsn" and an AP whose encryption contains "open" — the
claim's condition — yet the classification loop's `else if` files
"WPA-Open" as secure, `hasOpen` stays false and no Evil-Twin alert is
emitted (only two duplicate-SSID WARNINGs). -/
theorem C9_counterexample :
    ((DetectRogueAPs apsMixedC9).map (fun a => a.Severity) = ["WARNING", "WARNING"])
    ∧ ((DetectRogueAPs apsMixedC9).any (fun a => goContains a.Message "Evil Twin") = false)
    ∧ isSecureEnc "WPA2" = true
    ∧ goContains (goToLower "WPA-Open") "open" = true
    ∧ isOpenEnc "WPA-Open" = true := by
  refine ⟨by decide, by decide, by decide, by decide, by decide⟩

/-- C9 (amended): for every SSID group (ignoring empty and "Hidden")
containing at least one AP whose encryption contains "wpa" or "rsn"
(case-insensitive) and at least one AP that is *not* classified secure
and whose encryption is empty or contains "open", a CRITICAL Evil-Twin
alert is emitted for every AP of the group whose encryption is empty or
contains "open"; on the spec's two-AP input the result is exactly one
alert, CRITICAL with the Evil-Twin message, on BSSID 11:22:33:44:55:66. -/
theorem C9_evil_twin_alerts :
    (∀ (aps : List AccessPoint) (ssid : String) (ap : AccessPoint),
      ssid ≠ "" → ssid ≠ "Hidden" →
      (∃ s ∈ aps, s.SSID = ssid ∧ isSecureEnc s.Encryption = true) →
      (∃ o ∈ aps, o.SSID = ssid ∧ isSecureEnc o.Encryption = false
        ∧ isOpenEnc o.Encryption = true) →
      ap ∈ aps → ap.SSID = ssid → isOpenEnc ap.Encryption = true →
      evilTwinAlert ap ∈ DetectRogueAPs aps)
    ∧ DetectRogueAPs apsScenarioC9
        = [evilTwinAlert (mkAP "11:22:33:44:55:66" "Corporate" "Open")]
    ∧ (evilTwinAlert (mkAP "11:22:33:44:55:66" "Corporate" "Open")).Severity = "CRITICAL"
    ∧ goContains (evilTwinAlert (mkAP "11:22:33:44:55:66" "Corporate" "Open")).Message
        "Evil Twin" = true := by
  refine ⟨?_, by decide, by decide, by decide⟩
  intro aps ssid ap h1 h2 hsec hopen hap haps hopenap
  unfold DetectRogueAPs
  dsimp only
  apply mem_foldl_rule3
  have hssid_mem : ssid ∈ firstOcc []
      ((aps.filter (fun x => x.SSID ≠ "" && x.SSID ≠ "Hidden")).map
        (fun x => x.SSID)) := by
    apply mem_firstOcc
    · obtain ⟨s, hs, hss, _⟩ := hsec
      exact List.mem_map.mpr
        ⟨s, List.mem_filter.mpr ⟨hs, by simp [hss, h1, h2]⟩, hss⟩
    · simp
  exact mem_foldl_groupStep_processed _ aps [] ssid ap hssid_mem hsec hopen
    hap haps hopenap

/-- Witness for C9: the spec scenario instantiating the general rule. -/
theorem C9_evil_twin_alerts_witness :
    evilTwinAlert (mkAP "11:22:33:44:55:66" "Corporate" "Open")
      ∈ DetectRogueAPs apsScenarioC9 :=
  C9_evil_twin_alerts.1 apsScenarioC9 "Corporate"
    (mkAP "11:22:33:44:55:66" "Corporate" "Open")
    (by decide) (by decide)
    ⟨mkAP "AA:BB:CC:DD:EE:01" "Corporate" "WPA2-Ent", by decide, by decide, by decide⟩
    ⟨mkAP "11:22:33:44:55:66" "Corporate" "Open", by decide, by decide, by decide, by decide⟩
    (by decide) rfl (by decide)

/-! ### C4: JA3 invariance under GREASE, SNI and session-id changes -/

lemma drop_cons_split {l : List Nat} {n a : Nat} {rest : List Nat}
    (h : l.drop n = a :: rest) : l.getD n 0 = a ∧ l.drop (n + 1) = rest := by
  have hn : n < l.length := by
    have hl := congrArg List.length h
    rw [List.length_drop] at hl
    simp only [List.length_cons] at hl
    omega
  rw [List.drop_eq_getElem_cons hn] at h
  injection h with h1 h2
  refine ⟨?_, h2⟩
  rw [List.getD_eq_getElem?_getD, List.getElem?_eq_getElem hn]
  simpa using h1

lemma be16_of_drop {l : List Nat} {n v : Nat} {rest : List Nat}
    (h : l.drop n = v / 256 :: (v % 256 :: rest)) : be16 l n = v := by
  obtain ⟨h1, h2⟩ := drop_cons_split h
  obtain ⟨h3, -⟩ := drop_cons_split h2
  unfold be16
  rw [h1, h3]
  exact Nat.div_add_mod v 256

lemma drop_append_of_drop {l l1 l2 : List Nat} {n k : Nat}
    (h : l.drop n = l1 ++ l2) (hk : k = n + l1.length) : l.drop k = l2 := by
  subst hk
  rw [← List.drop_drop, h, List.drop_left]

lemma flatten_be16_length (cs : List Nat) :
    ((cs.map be16bytes).flatten).length = 2 * cs.length := by
  induction cs with
  | nil => rfl
  | cons c cs ih =>
    simp only [List.map_cons, List.flatten_cons, List.length_append,
      List.length_cons, ih,
      (show ∀ v, (be16bytes v).length = 2 from fun v => rfl)]
    omega

lemma extBytes_length_ge (exts : List Extension) :
    exts.length ≤ (extBytes exts).length := by
  induction exts with
  | nil => simp [extBytes]
  | cons e exts ih =>
    have h4 : (encExt e).length = 4 + e.body.length := by
      show e.body.length + 1 + 1 + 1 + 1 = 4 + e.body.length
      omega
    have hcons : (extBytes (e :: exts)).length
        = (encExt e).length + (extBytes exts).length := by
      simp [extBytes]
    rw [hcons]
    simp only [List.length_cons]
    omega

lemma cipherLoop_spec (cs : List Nat) :
    ∀ (payload rest : List Nat) (fuel csLen k offset : Nat),
      csLen = k + 2 * cs.length → cs.length ≤ fuel →
      payload.drop offset = (cs.map be16bytes).flatten ++ rest →
      cipherLoop payload fuel csLen k offset
        = (cs.filter (fun c => !isGREASE c), offset + 2 * cs.length) := by
  induction cs with
  | nil =>
    intro payload rest fuel csLen k offset hcs _ _
    subst hcs
    cases fuel <;> simp [cipherLoop]
  | cons c cs ih =>
    intro payload rest fuel csLen k offset hcs hfuel hdrop
    simp only [List.length_cons] at hcs hfuel
    obtain ⟨fuel, rfl⟩ : ∃ f, fuel = f + 1 := ⟨fuel - 1, by omega⟩
    have hdrop1 : payload.drop offset
        = c / 256 :: (c % 256 :: ((cs.map be16bytes).flatten ++ rest)) := hdrop
    have hlen2 : offset + 2 ≤ payload.length := by
      have hl := congrArg List.length hdrop1
      rw [List.length_drop] at hl
      simp only [List.length_cons] at hl
      omega
    have hc : be16 payload offset = c := be16_of_drop hdrop1
    have hnext : payload.drop (offset + 2)
        = (cs.map be16bytes).flatten ++ rest :=
      (drop_cons_split (drop_cons_split hdrop1).2).2
    simp only [cipherLoop]
    rw [if_pos (show k < csLen by omega),
      if_neg (show ¬(offset + 2 > payload.length) by omega)]
    simp only [hc,
      ih payload rest fuel csLen (k + 2) (offset + 2) (by omega) (by omega) hnext]
    rw [Prod.mk.injEq]
    refine ⟨?_, ?_⟩
    · rw [List.filter_cons]
      cases hgrease : isGREASE c
      · simp [hgrease]
      · simp [hgrease]
    · simp only [List.length_cons]
      omega

lemma extLoop_spec (exts : List Extension) :
    ∀ (payload : List Nat) (fuel endOfExt offset : Nat) (d : JA3Data),
      exts.length ≤ fuel →
      payload.drop offset = extBytes exts →
      endOfExt = offset + (extBytes exts).length →
      extLoop payload fuel endOfExt offset d
        = exts.foldl (fun d e => goExt d e.extType e.body) d := by
  induction exts with
  | nil =>
    intro payload fuel endOfExt offset d _ _ hend
    have h0 : (extBytes ([] : List Extension)).length = 0 := rfl
    rw [h0] at hend
    subst hend
    cases fuel with
    | zero => rfl
    | succ n =>
      simp only [extLoop]
      rw [if_neg (by omega)]
      rfl
  | cons e exts ih =>
    intro payload fuel endOfExt offset d hfuel hdrop hend
    simp only [List.length_cons] at hfuel
    obtain ⟨fuel, rfl⟩ : ∃ f, fuel = f + 1 := ⟨fuel - 1, by omega⟩
    have hdrop1 : payload.drop offset
        = e.extType / 256 :: (e.extType % 256 :: (e.body.length / 256
            :: (e.body.length % 256 :: (e.body ++ extBytes exts)))) := hdrop
    have hs1 := drop_cons_split hdrop1
    have hs2 := drop_cons_split hs1.2
    have hs3 := drop_cons_split hs2.2
    have hs4 := drop_cons_split hs3.2
    have htyp : be16 payload offset = e.extType := be16_of_drop hdrop1
    have hbl : be16 payload (offset + 2) = e.body.length := be16_of_drop hs2.2
    have hdrop4 : payload.drop (offset + 4) = e.body ++ extBytes exts := hs4.2
    have hlenEB : (extBytes (e :: exts)).length
        = 4 + (e.body.length + (extBytes exts).length) := by
      simp only [extBytes, List.map_cons, List.flatten_cons, List.length_append,
        encExt, (show ∀ v, (be16bytes v).length = 2 from fun v => rfl)]
      omega
    have hdata : (payload.drop (offset + 4)).take e.body.length = e.body := by
      rw [hdrop4]
      exact List.take_left' rfl
    have hnext : payload.drop (offset + 4 + e.body.length) = extBytes exts :=
      drop_append_of_drop hdrop4 rfl
    rw [hlenEB] at hend
    simp only [extLoop, htyp, hbl, hdata]
    rw [if_pos (show offset + 4 ≤ endOfExt by omega),
      if_neg (show ¬(offset + 4 + e.body.length > endOfExt) by omega)]
    rw [List.foldl_cons]
    exact ih payload fuel endOfExt (offset + 4 + e.body.length)
      (goExt d e.extType e.body) (by omega) hnext (by omega)

set_option maxHeartbeats 1000000 in
lemma extractJA3Data_encode (ch : ClientHello) (wf : wellFormedCH ch) :
    extractJA3Data (encodeClientHello ch) = some (ja3DataOf ch) := by
  obtain ⟨-, hr, -, -, -, -, -, -, -, -, -, -⟩ := wf
  have hlen : (encodeClientHello ch).length
      = 49 + ch.sessionId.length + 2 * ch.ciphers.length
        + ch.compressionMethods.length + (extBytes ch.extensions).length := by
    have hcsf := flatten_be16_length ch.ciphers
    simp only [encodeClientHello, chBody, List.length_append, List.length_cons,
      List.length_nil, (show ∀ v, (be16bytes v).length = 2 from fun v => rfl),
      (show ∀ v, (be24bytes v).length = 3 from fun v => rfl), hcsf, hr]
    omega
  have h0 : (encodeClientHello ch).getD 0 0 = 22 := rfl
  have h5 : (encodeClientHello ch).getD 5 0 = 1 := rfl
  have D9 : (encodeClientHello ch).drop 9
      = ch.version / 256 :: (ch.version % 256 :: (ch.random
          ++ ([ch.sessionId.length] ++ (ch.sessionId
          ++ (be16bytes (2 * ch.ciphers.length)
          ++ ((ch.ciphers.map be16bytes).flatten
          ++ ([ch.compressionMethods.length] ++ (ch.compressionMethods
          ++ (be16bytes (extBytes ch.extensions).length
          ++ extBytes ch.extensions))))))))) := by
    show chBody ch
      = ch.version / 256 :: (ch.version % 256 :: (ch.random
          ++ ([ch.sessionId.length] ++ (ch.sessionId
          ++ (be16bytes (2 * ch.ciphers.length)
          ++ ((ch.ciphers.map be16bytes).flatten
          ++ ([ch.compressionMethods.length] ++ (ch.compressionMethods
          ++ (be16bytes (extBytes ch.extensions).length
          ++ extBytes ch.extensions)))))))))
    simp only [chBody, List.append_assoc, be16bytes, List.cons_append,
      List.nil_append]
  have hver : be16 (encodeClientHello ch) 9 = ch.version := be16_of_drop D9
  have D11 : (encodeClientHello ch).drop 11
      = ch.random ++ ([ch.sessionId.length] ++ (ch.sessionId
          ++ (be16bytes (2 * ch.ciphers.length)
          ++ ((ch.ciphers.map be16bytes).flatten
          ++ ([ch.compressionMethods.length] ++ (ch.compressionMethods
          ++ (be16bytes (extBytes ch.extensions).length
          ++ extBytes ch.extensions))))))) :=
    (drop_cons_split (drop_cons_split D9).2).2
  have D43 : (encodeClientHello ch).drop 43
      = [ch.sessionId.length] ++ (ch.sessionId
          ++ (be16bytes (2 * ch.ciphers.length)
          ++ ((ch.ciphers.map be16bytes).flatten
          ++ ([ch.compressionMethods.length] ++ (ch.compressionMethods
          ++ (be16bytes (extBytes ch.extensions).length
          ++ extBytes ch.extensions)))))) :=
    drop_append_of_drop D11 (by omega)
  have hsplit43 := drop_cons_split
    (show (encodeClientHello ch).drop 43
      = ch.sessionId.length :: (ch.sessionId
          ++ (be16bytes (2 * ch.ciphers.length)
          ++ ((ch.ciphers.map be16bytes).flatten
          ++ ([ch.compressionMethods.length] ++ (ch.compressionMethods
          ++ (be16bytes (extBytes ch.extensions).length
          ++ extBytes ch.extensions)))))) from D43)
  have Do1 : (encodeClientHello ch).drop (43 + 1 + ch.sessionId.length)
      = be16bytes (2 * ch.ciphers.length)
          ++ ((ch.ciphers.map be16bytes).flatten
          ++ ([ch.compressionMethods.length] ++ (ch.compressionMethods
          ++ (be16bytes (extBytes ch.extensions).length
          ++ extBytes ch.extensions)))) :=
    drop_append_of_drop hsplit43.2 (by omega)
  have hcsl : be16 (encodeClientHello ch) (43 + 1 + ch.sessionId.length)
      = 2 * ch.ciphers.length :=
    be16_of_drop (show (encodeClientHello ch).drop (43 + 1 + ch.sessionId.length)
      = 2 * ch.ciphers.length / 256 :: (2 * ch.ciphers.length % 256
          :: ((ch.ciphers.map be16bytes).flatten
          ++ ([ch.compressionMethods.length] ++ (ch.compressionMethods
          ++ (be16bytes (extBytes ch.extensions).length
          ++ extBytes ch.extensions))))) from Do1)
  have Do2 : (encodeClientHello ch).drop (43 + 1 + ch.sessionId.length + 2)
      = (ch.ciphers.map be16bytes).flatten
          ++ ([ch.compressionMethods.length] ++ (ch.compressionMethods
          ++ (be16bytes (extBytes ch.extensions).length
          ++ extBytes ch.extensions))) :=
    drop_append_of_drop Do1 (by simp [be16bytes])
  have hloop : cipherLoop (encodeClientHello ch) (2 * ch.ciphers.length)
        (2 * ch.ciphers.length) 0 (43 + 1 + ch.sessionId.length + 2)
      = (ch.ciphers.filter (fun c => !isGREASE c),
          43 + 1 + ch.sessionId.length + 2 + 2 * ch.ciphers.length) :=
    cipherLoop_spec ch.ciphers (encodeClientHello ch)
      ([ch.compressionMethods.length] ++ (ch.compressionMethods
        ++ (be16bytes (extBytes ch.extensions).length ++ extBytes ch.extensions)))
      (2 * ch.ciphers.length) (2 * ch.ciphers.length) 0
      (43 + 1 + ch.sessionId.length + 2) (by omega) (by omega) Do2
  have Dr2 : (encodeClientHello ch).drop
        (43 + 1 + ch.sessionId.length + 2 + 2 * ch.ciphers.length)
      = [ch.compressionMethods.length] ++ (ch.compressionMethods
          ++ (be16bytes (extBytes ch.extensions).length
          ++ extBytes ch.extensions)) :=
    drop_append_of_drop Do2 (by rw [flatten_be16_length])
  have hsplitr2 := drop_cons_split
    (show (encodeClientHello ch).drop
        (43 + 1 + ch.sessionId.length + 2 + 2 * ch.ciphers.length)
      = ch.compressionMethods.length :: (ch.compressionMethods
          ++ (be16bytes (extBytes ch.extensions).length
          ++ extBytes ch.extensions)) from Dr2)
  have Do4 : (encodeClientHello ch).drop
        (43 + 1 + ch.sessionId.length + 2 + 2 * ch.ciphers.length + 1
          + ch.compressionMethods.length)
      = be16bytes (extBytes ch.extensions).length ++ extBytes ch.extensions :=
    drop_append_of_drop hsplitr2.2 (by omega)
  have hextlen : be16 (encodeClientHello ch)
        (43 + 1 + ch.sessionId.length + 2 + 2 * ch.ciphers.length + 1
          + ch.compressionMethods.length)
      = (extBytes ch.extensions).length :=
    be16_of_drop (show (encodeClientHello ch).drop
        (43 + 1 + ch.sessionId.length + 2 + 2 * ch.ciphers.length + 1
          + ch.compressionMethods.length)
      = (extBytes ch.extensions).length / 256
          :: ((extBytes ch.extensions).length % 256 :: extBytes ch.extensions)
      from Do4)
  have Do5 : (encodeClientHello ch).drop
        (43 + 1 + ch.sessionId.length + 2 + 2 * ch.ciphers.length + 1
          + ch.compressionMethods.length + 2)
      = extBytes ch.extensions :=
    drop_append_of_drop Do4 (by simp [be16bytes])
  have hmin : min (43 + 1 + ch.sessionId.length + 2 + 2 * ch.ciphers.length + 1
        + ch.compressionMethods.length + 2 + (extBytes ch.extensions).length)
      (49 + ch.sessionId.length + 2 * ch.ciphers.length
        + ch.compressionMethods.length + (extBytes ch.extensions).length)
      = 49 + ch.sessionId.length + 2 * ch.ciphers.length
        + ch.compressionMethods.length + (extBytes ch.extensions).length := by
    omega
  have hebge := extBytes_length_ge ch.extensions
  have hext : extLoop (encodeClientHello ch)
        (49 + ch.sessionId.length + 2 * ch.ciphers.length
          + ch.compressionMethods.length + (extBytes ch.extensions).length)
        (49 + ch.sessionId.length + 2 * ch.ciphers.length
          + ch.compressionMethods.length + (extBytes ch.extensions).length)
        (43 + 1 + ch.sessionId.length + 2 + 2 * ch.ciphers.length + 1
          + ch.compressionMethods.length + 2)
        ⟨ch.version, ch.ciphers.filter (fun c => !isGREASE c), [], [], []⟩
      = ch.extensions.foldl (fun d e => goExt d e.extType e.body)
          ⟨ch.version, ch.ciphers.filter (fun c => !isGREASE c), [], [], []⟩ :=
    extLoop_spec ch.extensions (encodeClientHello ch) _ _ _ _
      (by omega) Do5 (by omega)
  generalize hP : encodeClientHello ch = P
  rw [hP] at hlen h0 h5 hver hsplit43 hcsl hloop hsplitr2 hextlen hext
  unfold extractJA3Data
  lift_lets
  intro sslVersion sessionIDLen offset1 cipherSuitesLen offset2 r
    compMethodsLen offset4 d0 extensionsLen offset5 endOfExt
  have hA : sslVersion = ch.version := hver
  have hB : sessionIDLen = ch.sessionId.length := hsplit43.1
  have hC : offset1 = 43 + 1 + ch.sessionId.length := by
    show 43 + 1 + sessionIDLen = _
    rw [hB]
  have hD : cipherSuitesLen = 2 * ch.ciphers.length := by
    show be16 P offset1 = _
    rw [hC]
    exact hcsl
  have hE : offset2 = 43 + 1 + ch.sessionId.length + 2 := by
    show offset1 + 2 = _
    rw [hC]
  have hF : r = (ch.ciphers.filter (fun c => !isGREASE c),
      43 + 1 + ch.sessionId.length + 2 + 2 * ch.ciphers.length) := by
    show cipherLoop P cipherSuitesLen cipherSuitesLen 0 offset2 = _
    rw [hD, hE]
    exact hloop
  have hF1 : r.1 = ch.ciphers.filter (fun c => !isGREASE c) := by rw [hF]
  have hF2 : r.2 = 43 + 1 + ch.sessionId.length + 2 + 2 * ch.ciphers.length := by
    rw [hF]
  have hG : compMethodsLen = ch.compressionMethods.length := by
    show P.getD r.2 0 = _
    rw [hF2]
    exact hsplitr2.1
  have hH : offset4 = 43 + 1 + ch.sessionId.length + 2 + 2 * ch.ciphers.length
      + 1 + ch.compressionMethods.length := by
    show r.2 + 1 + compMethodsLen = _
    rw [hF2, hG]
  have hI : d0 = (⟨ch.version, ch.ciphers.filter (fun c => !isGREASE c),
      [], [], []⟩ : JA3Data) := by
    show (⟨sslVersion, r.1, [], [], []⟩ : JA3Data) = _
    rw [hA, hF1]
  have hJ : extensionsLen = (extBytes ch.extensions).length := by
    show be16 P offset4 = _
    rw [hH]
    exact hextlen
  have hK : offset5 = 43 + 1 + ch.sessionId.length + 2 + 2 * ch.ciphers.length
      + 1 + ch.compressionMethods.length + 2 := by
    show offset4 + 2 = _
    rw [hH]
  have hL : endOfExt = 49 + ch.sessionId.length + 2 * ch.ciphers.length
      + ch.compressionMethods.length + (extBytes ch.extensions).length := by
    show min (offset5 + extensionsLen) P.length = _
    rw [hK, hJ, hlen]
    exact hmin
  rw [hlen, hC, hD, hE, hF2, hH, hI, hK, hL, hext]
  rw [if_neg (by omega)]
  rw [if_neg (not_not_intro ⟨h0, h5⟩)]
  iterate 9 rw [if_neg (by omega)]
  rfl

lemma goExt_eq_goExtNorm (d : JA3Data) (e : Extension)
    (hg : isGREASE e.extType = false) :
    goExt d e.extType e.body
      = goExtNorm d (e.extType,
          if e.extType = 0 then []
          else if e.extType = 10 then parseEllipticCurves e.body
          else e.body) := by
  by_cases h0 : e.extType = 0
  · rw [h0] at hg
    simp [goExt, goExtNorm, hg, h0]
  · by_cases h10 : e.extType = 10
    · rw [h10] at hg
      simp [goExt, goExtNorm, hg, h10]
    · by_cases h11 : e.extType = 11
      · rw [h11] at hg
        simp [goExt, goExtNorm, hg, h0, h10, h11]
      · simp [goExt, goExtNorm, hg, h0, h10, h11]

lemma foldl_goExt_norm (exts : List Extension) :
    ∀ d : JA3Data,
      exts.foldl (fun d e => goExt d e.extType e.body) d
        = (exts.filterMap normExt).foldl goExtNorm d := by
  induction exts with
  | nil => intro d; rfl
  | cons e exts ih =>
    intro d
    cases hg : isGREASE e.extType with
    | true =>
      have hn : normExt e = none := by simp [normExt, hg]
      have hskip : goExt d e.extType e.body = d := by simp [goExt, hg]
      simp only [List.foldl_cons, List.filterMap_cons, hn, hskip]
      exact ih d
    | false =>
      have hn : normExt e = some (e.extType,
          if e.extType = 0 then []
          else if e.extType = 10 then parseEllipticCurves e.body
          else e.body) := by simp [normExt, hg]
      simp only [List.foldl_cons, List.filterMap_cons, hn]
      rw [goExt_eq_goExtNorm d e hg]
      exact ih _

lemma ja3DataOf_congr {ch1 ch2 : ClientHello}
    (h : normalizeCH ch1 = normalizeCH ch2) : ja3DataOf ch1 = ja3DataOf ch2 := by
  have h1 := congrArg (fun t => t.1) h
  have h3 := congrArg (fun t => t.2.2.1) h
  have h5 := congrArg (fun t => t.2.2.2.2) h
  simp only [normalizeCH] at h1 h3 h5
  unfold ja3DataOf
  rw [foldl_goExt_norm, foldl_goExt_norm, h1, h3, h5]

set_option maxRecDepth 10000 in
/-- MD5 sanity check: the embedded digest matches the reference vector
for the empty string. -/
theorem md5Hex_empty_ref : md5Hex "" = "d41d8cd98f00b204e9800998ecf8427e" := by
  decide

set_option maxRecDepth 10000 in
/-- MD5 sanity check: the embedded digest of a JA3-shaped string matches
the reference implementation. -/
theorem md5Hex_ja3_ref : md5Hex "771,47,0,," = "6169fabc98e3e6c9690301eaf306d632" := by
  decide

set_option maxRecDepth 10000 in
/-- C4 counterexample: two Client Hellos identical except that a GREASE
word (`0x0a0a`, bytes 10,10) is inserted into the ec_point_formats list
of extension 11 produce different JA3 fingerprints: `parseECPointFormats`
keeps GREASE bytes (the claimed GREASE removal covers the
ec_point_formats list, but the code never filters it). -/
theorem C4_counterexample :
    chC4fmt1.version = chC4fmt2.version
      ∧ chC4fmt1.random = chC4fmt2.random
      ∧ chC4fmt1.sessionId = chC4fmt2.sessionId
      ∧ chC4fmt1.ciphers = chC4fmt2.ciphers
      ∧ chC4fmt1.compressionMethods = chC4fmt2.compressionMethods
      ∧ chC4fmt1.extensions.map Extension.extType = [11]
      ∧ chC4fmt2.extensions.map Extension.extType = [11]
      ∧ parseECPointFormats [1, 0] = [0]
      ∧ parseECPointFormats [3, 10, 10, 0] = [10, 10, 0]
      ∧ isGREASE 2570 = true
      ∧ stripGreaseWords [10, 10, 0] = stripGreaseWords [0]
      ∧ CalculateJA3 (encodeClientHello chC4fmt1)
          ≠ CalculateJA3 (encodeClientHello chC4fmt2) := by
  refine ⟨rfl, rfl, rfl, rfl, rfl, rfl, rfl, by decide, by decide, by decide,
    by decide, by decide⟩

/-- C4: (corrected) `CalculateJA3` returns the identical fingerprint for
any two well-formed Client Hellos with the same normal form, i.e. equal
after removing GREASE values from the cipher-suites, extensions and
supported_groups lists and erasing the session id and the SNI body.  The
original claim's ec_point_formats clause is refuted by
`C4_counterexample`: that list is not GREASE-filtered. -/
theorem C4_ja3_grease_invariance (ch1 ch2 : ClientHello)
    (h1 : wellFormedCH ch1) (h2 : wellFormedCH ch2)
    (hnorm : normalizeCH ch1 = normalizeCH ch2) :
    CalculateJA3 (encodeClientHello ch1) = CalculateJA3 (encodeClientHello ch2) := by
  unfold CalculateJA3
  rw [extractJA3Data_encode ch1 h1, extractJA3Data_encode ch2 h2,
    ja3DataOf_congr hnorm]

/-- Witness for C4: two concrete hellos differing in a GREASE cipher, a
GREASE extension, a GREASE supported group, the session id and the SNI
body have the same fingerprint. -/
theorem C4_ja3_grease_invariance_witness :
    wellFormedCH chC4g1 ∧ wellFormedCH chC4g2
      ∧ normalizeCH chC4g1 = normalizeCH chC4g2
      ∧ chC4g1 ≠ chC4g2
      ∧ CalculateJA3 (encodeClientHello chC4g1)
          = CalculateJA3 (encodeClientHello chC4g2) :=
  ⟨by unfold wellFormedCH bytesOK; decide,
   by unfold wellFormedCH bytesOK; decide,
   by decide, by decide,
   C4_ja3_grease_invariance chC4g1 chC4g2
     (by unfold wellFormedCH bytesOK; decide)
     (by unfold wellFormedCH bytesOK; decide)
     (by decide)⟩

end Netscope
